import Mathlib

/-!
web-vortex: the chart-text parser `parseSMFile` (src/server/main.go).

A shallow embedding of `parseSMFile` and of the Go library functions it calls
(`bufio.Scanner` with the default `ScanLines` split function, `strings.HasPrefix`,
`strings.TrimPrefix`, `strings.TrimSpace`, `strings.SplitN`, `strings.Split`), followed by
theorems about the parser.

Modelling conventions.
* A Go `string` is modelled as a `List Char` (a sequence of Unicode code points), that is, as
  well-formed UTF-8 text.  `len(s)` in bytes is `utf8Len s`.
* The separators passed to `strings.Split` and `strings.SplitN` in the source are the
  one-character strings ":" and ","; the embedding takes the separator as a `Char`.
* The loop `for scanner.Scan() { line := scanner.Text(); ... }` is a left fold of the loop body
  `parseLine` over the tokens the scanner delivers; `scanner.Err()` is the second component
  of `scanLines`.
-/

namespace WebVortex

/-! ## Go strings -/

/-- A Go string, as the sequence of its code points. -/
abbrev GoString := List Char

/-- Go `len(s)`: the number of bytes of the UTF-8 encoding of `s`. -/
def utf8Len (s : GoString) : Nat := (s.map Char.utf8Size).sum

/-- Go `strings.HasPrefix(s, pre)`. -/
def HasPrefix (s pre : GoString) : Bool := pre.isPrefixOf s

/-- Go `strings.TrimPrefix(s, pre)`: `s` without the leading `pre`, or `s` itself when `s` does
not start with `pre`. -/
def TrimPrefix (s pre : GoString) : GoString :=
  if HasPrefix s pre then s.drop pre.length else s

/-- Go `unicode.IsSpace`: in Latin-1 the characters tab, LF, VT, FF, CR, space, U+0085 and
U+00A0; above Latin-1 the code points of the `White_Space` table. -/
def IsSpace (r : Char) : Bool :=
  let n := r.toNat
  if n ≤ 0xFF then
    n == 0x09 || n == 0x0A || n == 0x0B || n == 0x0C || n == 0x0D || n == 0x20
      || n == 0x85 || n == 0xA0
  else
    n == 0x1680 || (0x2000 ≤ n && n ≤ 0x200A) || n == 0x2028 || n == 0x2029
      || n == 0x202F || n == 0x205F || n == 0x3000

/-- Go `strings.TrimSpace(s)`: `s` without its leading and trailing white space
(`TrimRightFunc(TrimLeftFunc(s, unicode.IsSpace), unicode.IsSpace)`). -/
def TrimSpace (s : GoString) : GoString :=
  ((s.dropWhile IsSpace).reverse.dropWhile IsSpace).reverse

/-- Go `strings.Cut(s, sep)` for a one-character separator: the text before and after the first
occurrence of `sep`, or `none` when `sep` does not occur (`strings.Index` returns -1). -/
def Cut (sep : Char) : GoString → Option (GoString × GoString)
  | [] => none
  | c :: cs =>
    if c = sep then some ([], cs)
    else match Cut sep cs with
      | none => none
      | some (a, b) => some (c :: a, b)

/-- Go `strings.SplitN(s, sep, n)` for a one-character separator and `n ≥ 0`: at most `n`
substrings, the last one being the unsplit remainder; `n = 0` gives the empty slice. -/
def SplitN (s : GoString) (sep : Char) : Nat → List GoString
  | 0 => []
  | 1 => [s]
  | n + 2 =>
    match Cut sep s with
    | none => [s]
    | some (a, b) => a :: SplitN b sep (n + 1)

/-- Go `strings.Split(s, sep)` for a one-character separator: all substrings between
occurrences of `sep`; the result always has at least one element. -/
def Split : GoString → Char → List GoString
  | [], _ => [[]]
  | c :: cs, sep =>
    if c = sep then [] :: Split cs sep
    else match Split cs sep with
      | [] => [[c]]
      | f :: fs => (c :: f) :: fs

/-! ## bufio.Scanner with the default split function ScanLines -/

/-- Go `bufio.MaxScanTokenSize`: the default maximum size of the scanner's buffer. -/
def MaxScanTokenSize : Nat := 64 * 1024

/-- The errors `scanner.Err()` can report when reading from an in-memory string. -/
inductive ScanError where
  | ErrTooLong
  deriving DecidableEq, Repr

/-- The lines of a text: the pieces between line feeds; a final piece is a line only when it
is not empty (what `bufio.ScanLines` tokenises, before the carriage return is dropped). -/
def splitLines : GoString → List GoString
  | [] => []
  | c :: cs =>
    if c = '\n' then [] :: splitLines cs
    else match splitLines cs with
      | [] => [[c]]
      | l :: ls => (c :: l) :: ls

/-- Go `dropCR` of bufio: drops one trailing carriage return. -/
def dropCR (l : GoString) : GoString :=
  if l.getLast? = some '\r' then l.dropLast else l

/-- The scanner run to its end over the given raw lines: the tokens `scanner.Text()` takes
in turn, and `scanner.Err()` after `Scan` has returned false.  A line that does not fit the
buffer together with its line feed (`MaxScanTokenSize` bytes or more before the line feed or
the end of input) stops the scan with `ErrTooLong`. -/
def scanTokens : List GoString → List GoString × Option ScanError
  | [] => ([], none)
  | l :: ls =>
    if MaxScanTokenSize ≤ utf8Len l then ([], some ScanError.ErrTooLong)
    else ((dropCR l) :: (scanTokens ls).1, (scanTokens ls).2)

/-- The scanner `bufio.NewScanner(strings.NewReader(data))` run to its end. -/
def scanLines (data : GoString) : List GoString × Option ScanError :=
  scanTokens (splitLines data)

/-! ## The data model (main.go, lines 15-29) -/

/-- Go `ChartData`. -/
structure ChartData where
  ChartHeader : GoString
  Type_ : GoString
  Tag : GoString
  DifficultyTag : GoString
  Difficulty : GoString
  Notes : List (List GoString)
  deriving DecidableEq, Repr

/-- Go `SongData`. -/
structure SongData where
  Title : GoString
  Artist : GoString
  BPMS : GoString
  Charts : List ChartData
  deriving DecidableEq, Repr

/-! ## parseSMFile (main.go, lines 81-144) -/

/-- The local variables of `parseSMFile` that the loop reads and writes. -/
structure ParseState where
  songData : SongData
  currentType : GoString
  currentTag : GoString
  currentDifficulty : GoString
  currentDifficultyTag : GoString
  notes : List (List GoString)
  deriving DecidableEq, Repr

/-- The state before the loop: `songData := &SongData{}` and zero-valued locals. -/
def initState : ParseState :=
  { songData := { Title := [], Artist := [], BPMS := [], Charts := [] }
    currentType := [], currentTag := [], currentDifficulty := [], currentDifficultyTag := []
    notes := [] }

/-- The composite literal `ChartData{Type: currentType, Tag: currentTag, Difficulty:
currentDifficulty, DifficultyTag: currentDifficultyTag, Notes: notes}` of lines 98-104 and
130-136; `ChartHeader` is not set and keeps its zero value. -/
def currentChart (st : ParseState) : ChartData :=
  { ChartHeader := []
    Type_ := st.currentType
    Tag := st.currentTag
    Difficulty := st.currentDifficulty
    DifficultyTag := st.currentDifficultyTag
    Notes := st.notes }

/-- Lines 97-106: when `len(notes) > 0`, append the current chart and reset `notes`. -/
def sealPending (st : ParseState) : ParseState :=
  if st.notes.length > 0 then
    { st with
      songData := { st.songData with Charts := st.songData.Charts ++ [currentChart st] }
      notes := [] }
  else st

/-- Lines 108-120: the metadata of a "#NOTES:" line.  `SplitN(line, ":", 2)` must give two
pieces; the second, trimmed, is split on ":" and when that gives 4 fields or more the first
four, trimmed, become the current type, tag, difficulty and difficulty tag. -/
def parseNotesMeta (st : ParseState) (line : GoString) : ParseState :=
  match SplitN line ':' 2 with
  | [_, rest] =>
    match Split (TrimSpace rest) ':' with
    | f0 :: f1 :: f2 :: f3 :: _ =>
      { st with
        currentType := TrimSpace f0
        currentTag := TrimSpace f1
        currentDifficulty := TrimSpace f2
        currentDifficultyTag := TrimSpace f3 }
    | _ => st
  | _ => st

/-- The body of the loop (lines 88-125) for one line. -/
def parseLine (st : ParseState) (line : GoString) : ParseState :=
  if HasPrefix line "#TITLE:".toList then
    { st with songData :=
      { st.songData with Title := TrimSpace (TrimPrefix line "#TITLE:".toList) } }
  else if HasPrefix line "#ARTIST:".toList then
    { st with songData :=
      { st.songData with Artist := TrimSpace (TrimPrefix line "#ARTIST:".toList) } }
  else if HasPrefix line "#BPMS:".toList then
    { st with songData :=
      { st.songData with BPMS := TrimSpace (TrimPrefix line "#BPMS:".toList) } }
  else if HasPrefix line "#NOTES:".toList then
    parseNotesMeta (sealPending st) line
  else if HasPrefix line ",".toList then
    { st with notes := st.notes ++ [Split (TrimSpace line) ','] }
  else st

/-- Lines 128-137: after the loop, append the last chart when `len(notes) > 0`. -/
def finish (st : ParseState) : SongData :=
  if st.notes.length > 0 then
    { st.songData with Charts := st.songData.Charts ++ [currentChart st] }
  else st.songData

/-- The loop (lines 87-126) run from a given state over the lines the scanner delivers. -/
def run (st : ParseState) (ls : List GoString) : ParseState := ls.foldl parseLine st

/-- The loop and the final append, over the lines the scanner delivered. -/
def parseLines (lines : List GoString) : SongData :=
  finish (run initState lines)

/-- Go `parseSMFile(data)`: the record and a nil error, or no record and the scanner's error
(wrapped by `fmt.Errorf`). -/
def parseSMFile (data : GoString) : Except ScanError SongData :=
  match (scanLines data).2 with
  | some err => Except.error err
  | none => Except.ok (parseLines (scanLines data).1)

/-! ## Vocabulary of the specification -/

/-- A line starting with the notes-section marker "#NOTES:". -/
def isNotesLine (l : GoString) : Bool := HasPrefix l "#NOTES:".toList

/-- A note row line: a line starting with ",". -/
def isNoteRow (l : GoString) : Bool := HasPrefix l ",".toList

/-- The tokens of a note row line: trim, then split on ",". -/
def tokenizeRow (l : GoString) : List GoString := Split (TrimSpace l) ','

/-- The tokenized rows of the note row lines among the given lines, in order. -/
def noteRows (ls : List GoString) : List (List GoString) :=
  (ls.filter isNoteRow).map tokenizeRow

/-- The lines of the input text, without their terminators (LF, or CR LF). -/
def inputLines (data : GoString) : List GoString := (splitLines data).map dropCR

/-- Every line of the input has fewer than `MaxScanTokenSize` bytes before its line feed or
the end of input. -/
def LinesFit (data : GoString) : Prop := ∀ l ∈ splitLines data, utf8Len l < MaxScanTokenSize

instance (data : GoString) : Decidable (LinesFit data) := by
  unfold LinesFit; infer_instance

/-- The lines before the first "#NOTES:" line (all lines when there is none). -/
def leadingLines (ls : List GoString) : List GoString := ls.takeWhile (fun l => !isNotesLine l)

/-- The lines after the last "#NOTES:" line (all lines when there is none). -/
def trailingLines (ls : List GoString) : List GoString :=
  (ls.reverse.takeWhile (fun l => !isNotesLine l)).reverse

/-- The notes sections: each "#NOTES:" line, in order, paired with the lines that follow it
before the next "#NOTES:" line or the end of input. -/
def notesSections : List GoString → List (GoString × List GoString)
  | [] => []
  | l :: ls =>
    if isNotesLine l then (l, leadingLines ls) :: notesSections ls else notesSections ls

/-- The text of a line after its first colon (empty when the line has no colon). -/
def afterFirstColon (l : GoString) : GoString :=
  match Cut ':' l with
  | some (_, rest) => rest
  | none => []

/-- The colon-delimited fields of a "#NOTES:" line: its text after the first colon, split on
":". -/
def notesFields (l : GoString) : List GoString := Split (afterFirstColon l) ':'

/-- The four metadata values of a chart, in the order type, tag, difficulty, difficulty tag. -/
abbrev ChartMeta := GoString × GoString × GoString × GoString

/-- The metadata values a chart record holds. -/
def ChartData.chartMeta (c : ChartData) : ChartMeta :=
  (c.Type_, c.Tag, c.Difficulty, c.DifficultyTag)

/-- The values of `currentType`, `currentTag`, `currentDifficulty`, `currentDifficultyTag`. -/
def ParseState.current (st : ParseState) : ChartMeta :=
  (st.currentType, st.currentTag, st.currentDifficulty, st.currentDifficultyTag)

/-- The last line among `ls` that starts with "#NOTES:" and has 4 or more fields. -/
def lastMetaLine (ls : List GoString) : Option GoString :=
  (ls.filter (fun l => isNotesLine l && decide (4 ≤ (notesFields l).length))).getLast?

/-- Fields 0, 1, 2 and 3 of a "#NOTES:" line, each trimmed; four empty strings when there
is no line. -/
def metaOfLine : Option GoString → ChartMeta
  | none => ([], [], [], [])
  | some l =>
    (TrimSpace ((notesFields l).getD 0 []), TrimSpace ((notesFields l).getD 1 []),
      TrimSpace ((notesFields l).getD 2 []), TrimSpace ((notesFields l).getD 3 []))

/-- The last line among `ls` that starts with the given marker. -/
def lastWithPrefix (marker : GoString) (ls : List GoString) : Option GoString :=
  (ls.filter (fun l => HasPrefix l marker)).getLast?

/-- The note row line ",t1,...,tn" made of the tokens t1, ..., tn. -/
def rowLine (ts : List GoString) : GoString := (ts.map (fun t => ',' :: t)).flatten

/-- Go `strings.Join(elems, sep)`. -/
def Join : List GoString → GoString → GoString
  | [], _ => []
  | [a], _ => a
  | a :: b :: rest, sep => a ++ sep ++ Join (b :: rest) sep

/-- A line the loop recognises: it starts, at column 0 and case-sensitively, with "#TITLE:",
"#ARTIST:", "#BPMS:", "#NOTES:" or ",". -/
def isRecognized (l : GoString) : Bool :=
  HasPrefix l "#TITLE:".toList || HasPrefix l "#ARTIST:".toList || HasPrefix l "#BPMS:".toList
    || isNotesLine l || isNoteRow l

/-- The index, in the list of charts, of the chart that receives a note row read after the
lines `pre`: the number of charts appended while reading `pre`. -/
def chartOfRow (pre : List GoString) : Nat := (run initState pre).songData.Charts.length

/-- The 13-line scenario input of the specification (section 8). -/
def scenarioInput : GoString :=
  ("#TITLE:My Song;\n#ARTIST:  Someone ;\n#BPMS:120.0;\n#NOTES:\n    dance-single:\n" ++
    "    Author:\n    Hard:\n    8:\n0000\n1000\n,\n0100\n0001\n").toList

/-! ## Auxiliary definitions for the proofs -/

/-- A chart record with the given metadata values and note rows. -/
def mkChart (m : ChartMeta) (rows : List (List GoString)) : ChartData :=
  { ChartHeader := [], Type_ := m.1, Tag := m.2.1, Difficulty := m.2.2.1,
    DifficultyTag := m.2.2.2, Notes := rows }

/-- The chart sealed from the given rows: none when there are no rows. -/
def chartsIf (m : ChartMeta) (rows : List (List GoString)) : List ChartData :=
  if rows = [] then [] else [mkChart m rows]

/-- The effect of a "#NOTES:" line on the current metadata values (lines 108-120). -/
def stepMeta (m : ChartMeta) (l : GoString) : ChartMeta :=
  match SplitN l ':' 2 with
  | [_, rest] =>
    match Split (TrimSpace rest) ':' with
    | f0 :: f1 :: f2 :: f3 :: _ => (TrimSpace f0, TrimSpace f1, TrimSpace f2, TrimSpace f3)
    | _ => m
  | _ => m

/-- The charts sealed from a sequence of notes sections, starting from given metadata. -/
def sectionCharts (m : ChartMeta) : List (GoString × List GoString) → List ChartData
  | [] => []
  | s :: secs =>
    chartsIf (stepMeta m s.1) (noteRows s.2) ++ sectionCharts (stepMeta m s.1) secs

/-- The text a directive gives: the trimmed text after the marker on the last line starting
with the marker, or the empty string when there is no such line. -/
def directiveText (marker : GoString) (ls : List GoString) : GoString :=
  match lastWithPrefix marker ls with
  | none => []
  | some l => TrimSpace (l.drop marker.length)

/-! ## Line prefixes -/

theorem lit_title : "#TITLE:".toList = ['#', 'T', 'I', 'T', 'L', 'E', ':'] := rfl
theorem lit_artist : "#ARTIST:".toList = ['#', 'A', 'R', 'T', 'I', 'S', 'T', ':'] := rfl
theorem lit_bpms : "#BPMS:".toList = ['#', 'B', 'P', 'M', 'S', ':'] := rfl
theorem lit_notes : "#NOTES:".toList = ['#', 'N', 'O', 'T', 'E', 'S', ':'] := rfl
theorem lit_comma : ",".toList = [','] := rfl

theorem notesLine_exclusive (l : GoString) (h : isNotesLine l = true) :
    HasPrefix l "#TITLE:".toList = false ∧ HasPrefix l "#ARTIST:".toList = false ∧
    HasPrefix l "#BPMS:".toList = false := by
  rcases l with _ | ⟨c0, _ | ⟨c1, l⟩⟩
  · simp [isNotesLine, HasPrefix, lit_notes, List.isPrefixOf] at h
  · simp [isNotesLine, HasPrefix, lit_notes, List.isPrefixOf] at h
  · simp only [isNotesLine, HasPrefix, lit_notes, List.isPrefixOf, Bool.and_eq_true,
      beq_iff_eq] at h
    obtain ⟨rfl, rfl, -⟩ := h
    simp [HasPrefix, lit_title, lit_artist, lit_bpms, List.isPrefixOf]

theorem noteRow_exclusive (l : GoString) (h : isNoteRow l = true) :
    HasPrefix l "#TITLE:".toList = false ∧ HasPrefix l "#ARTIST:".toList = false ∧
    HasPrefix l "#BPMS:".toList = false ∧ isNotesLine l = false := by
  rcases l with _ | ⟨c0, l⟩
  · simp [isNoteRow, HasPrefix, lit_comma, List.isPrefixOf] at h
  · simp only [isNoteRow, HasPrefix, lit_comma, List.isPrefixOf, Bool.and_eq_true,
      beq_iff_eq] at h
    obtain ⟨rfl, -⟩ := h
    simp [isNotesLine, HasPrefix, lit_title, lit_artist, lit_bpms, lit_notes, List.isPrefixOf]

theorem noteRow_iff (l : GoString) : isNoteRow l = true ↔ ∃ t, l = ',' :: t := by
  simp only [isNoteRow, HasPrefix, lit_comma, List.isPrefixOf_iff_prefix]
  constructor
  · rintro ⟨t, ht⟩; exact ⟨t, ht.symm⟩
  · rintro ⟨t, ht⟩; exact ⟨t, ht.symm⟩

theorem notesLine_iff (l : GoString) :
    isNotesLine l = true ↔ ∃ t, l = "#NOTES:".toList ++ t := by
  simp only [isNotesLine, HasPrefix, List.isPrefixOf_iff_prefix]
  constructor
  · rintro ⟨t, ht⟩; exact ⟨t, ht.symm⟩
  · rintro ⟨t, ht⟩; exact ⟨t, ht.symm⟩

/-! ## The loop body, by kind of line -/

theorem parseLine_notes (st : ParseState) (l : GoString) (h : isNotesLine l = true) :
    parseLine st l = parseNotesMeta (sealPending st) l := by
  obtain ⟨h1, h2, h3⟩ := notesLine_exclusive l h
  simp only [isNotesLine] at h
  simp only [parseLine, h1, h2, h3, h, Bool.false_eq_true, ↓reduceIte]

theorem parseLine_row (st : ParseState) (l : GoString) (h : isNoteRow l = true) :
    parseLine st l = { st with notes := st.notes ++ [tokenizeRow l] } := by
  obtain ⟨h1, h2, h3, h4⟩ := noteRow_exclusive l h
  simp only [isNoteRow, isNotesLine] at h h4
  simp only [parseLine, h1, h2, h3, h4, h, tokenizeRow, Bool.false_eq_true, ↓reduceIte]

theorem parseLine_other (st : ParseState) (l : GoString) (hn : isNotesLine l = false)
    (hr : isNoteRow l = false) :
    (parseLine st l).songData.Charts = st.songData.Charts ∧
    (parseLine st l).current = st.current ∧ (parseLine st l).notes = st.notes := by
  simp only [isNoteRow, isNotesLine] at hn hr
  unfold parseLine
  simp only [hn, hr, Bool.false_eq_true, ↓reduceIte]
  split_ifs <;> simp [ParseState.current]

theorem parseNotesMeta_view (st : ParseState) (l : GoString) :
    (parseNotesMeta st l).songData = st.songData ∧
    (parseNotesMeta st l).current = stepMeta st.current l ∧
    (parseNotesMeta st l).notes = st.notes := by
  unfold parseNotesMeta stepMeta
  split
  · split <;> simp [ParseState.current]
  · simp [ParseState.current]

theorem currentChart_eq (st : ParseState) : currentChart st = mkChart st.current st.notes := rfl

theorem sealPending_view (st : ParseState) :
    (sealPending st).songData.Charts = st.songData.Charts ++ chartsIf st.current st.notes ∧
    (sealPending st).current = st.current ∧ (sealPending st).notes = [] ∧
    (sealPending st).songData.Title = st.songData.Title ∧
    (sealPending st).songData.Artist = st.songData.Artist ∧
    (sealPending st).songData.BPMS = st.songData.BPMS := by
  unfold sealPending chartsIf
  by_cases h : st.notes = []
  · simp [h, ParseState.current]
  · have : st.notes.length > 0 := List.length_pos.mpr h
    simp [h, this, ParseState.current, currentChart_eq]

theorem parseLine_notes_view (st : ParseState) (l : GoString) (h : isNotesLine l = true) :
    (parseLine st l).songData.Charts = st.songData.Charts ++ chartsIf st.current st.notes ∧
    (parseLine st l).current = stepMeta st.current l ∧ (parseLine st l).notes = [] := by
  rw [parseLine_notes st l h]
  obtain ⟨a1, a2, a3⟩ := parseNotesMeta_view (sealPending st) l
  obtain ⟨b1, b2, b3, -⟩ := sealPending_view st
  rw [a1, a2, a3, b1, b2, b3]
  exact ⟨rfl, rfl, rfl⟩

theorem finish_charts (st : ParseState) :
    (finish st).Charts = st.songData.Charts ++ chartsIf st.current st.notes := by
  unfold finish chartsIf
  by_cases h : st.notes = []
  · simp [h]
  · have : st.notes.length > 0 := List.length_pos.mpr h
    simp [h, this, currentChart_eq]

/-! ## The loop over a list of lines -/

theorem run_nil (st : ParseState) : run st [] = st := rfl

theorem run_cons (st : ParseState) (l : GoString) (ls : List GoString) :
    run st (l :: ls) = run (parseLine st l) ls := rfl

theorem run_append (st : ParseState) (as bs : List GoString) :
    run st (as ++ bs) = run (run st as) bs := by
  simp [run, List.foldl_append]

theorem noteRows_nil : noteRows [] = [] := rfl

theorem noteRows_cons_row (l : GoString) (ls : List GoString) (h : isNoteRow l = true) :
    noteRows (l :: ls) = tokenizeRow l :: noteRows ls := by
  simp [noteRows, List.filter_cons, h]

theorem noteRows_cons_other (l : GoString) (ls : List GoString) (h : isNoteRow l = false) :
    noteRows (l :: ls) = noteRows ls := by
  simp [noteRows, List.filter_cons, h]

theorem noteRows_append (as bs : List GoString) :
    noteRows (as ++ bs) = noteRows as ++ noteRows bs := by
  simp [noteRows]

theorem leadingLines_cons_notes (l : GoString) (ls : List GoString) (h : isNotesLine l = true) :
    leadingLines (l :: ls) = [] := by
  simp [leadingLines, List.takeWhile_cons, h]

theorem leadingLines_cons_other (l : GoString) (ls : List GoString) (h : isNotesLine l = false) :
    leadingLines (l :: ls) = l :: leadingLines ls := by
  simp [leadingLines, List.takeWhile_cons, h]

theorem notesSections_cons_notes (l : GoString) (ls : List GoString) (h : isNotesLine l = true) :
    notesSections (l :: ls) = (l, leadingLines ls) :: notesSections ls := by
  simp [notesSections, h]

theorem notesSections_cons_other (l : GoString) (ls : List GoString) (h : isNotesLine l = false) :
    notesSections (l :: ls) = notesSections ls := by
  simp [notesSections, h]

/-- The charts of the record built from any state: the charts already sealed, the chart of
the pending rows and the rows before the next "#NOTES:" line, and the charts of the
notes sections. -/
theorem charts_run (ls : List GoString) : ∀ st : ParseState,
    (finish (run st ls)).Charts =
      st.songData.Charts ++ chartsIf st.current (st.notes ++ noteRows (leadingLines ls)) ++
        sectionCharts st.current (notesSections ls) := by
  induction ls with
  | nil =>
    intro st
    simp [run_nil, finish_charts, leadingLines, noteRows_nil, notesSections, sectionCharts]
  | cons l ls ih =>
    intro st
    rw [run_cons, ih]
    by_cases hn : isNotesLine l = true
    · obtain ⟨h1, h2, h3⟩ := parseLine_notes_view st l hn
      rw [h1, h2, h3, leadingLines_cons_notes l ls hn, notesSections_cons_notes l ls hn]
      simp [sectionCharts, noteRows_nil, List.append_assoc]
    · have hn' : isNotesLine l = false := by simpa using hn
      rw [leadingLines_cons_other l ls hn', notesSections_cons_other l ls hn']
      by_cases hr : isNoteRow l = true
      · rw [parseLine_row st l hr, noteRows_cons_row l _ hr]
        simp [ParseState.current]
      · have hr' : isNoteRow l = false := by simpa using hr
        obtain ⟨h1, h2, h3⟩ := parseLine_other st l hn' hr'
        rw [h1, h2, h3, noteRows_cons_other l _ hr']

theorem parseLines_charts (ls : List GoString) :
    (parseLines ls).Charts =
      chartsIf ([], [], [], []) (noteRows (leadingLines ls)) ++
        sectionCharts ([], [], [], []) (notesSections ls) := by
  have h := charts_run ls initState
  simpa [parseLines, run, initState, ParseState.current] using h

/-! ## The scanner -/

theorem scanTokens_fit (ls : List GoString) (h : ∀ l ∈ ls, utf8Len l < MaxScanTokenSize) :
    scanTokens ls = (ls.map dropCR, none) := by
  induction ls with
  | nil => rfl
  | cons l ls ih =>
    have hl : ¬ MaxScanTokenSize ≤ utf8Len l := Nat.not_le.mpr (h l (List.mem_cons_self l ls))
    have ih' := ih (fun x hx => h x (List.mem_cons_of_mem l hx))
    simp [scanTokens, hl, ih']

theorem scanTokens_tooLong (ls : List GoString)
    (h : ∃ l ∈ ls, MaxScanTokenSize ≤ utf8Len l) :
    (scanTokens ls).2 = some ScanError.ErrTooLong := by
  induction ls with
  | nil => simp at h
  | cons l ls ih =>
    by_cases hl : MaxScanTokenSize ≤ utf8Len l
    · simp [scanTokens, hl]
    · have : ∃ x ∈ ls, MaxScanTokenSize ≤ utf8Len x := by
        obtain ⟨x, hx, hx2⟩ := h
        rcases List.mem_cons.mp hx with rfl | hx'
        · exact absurd hx2 hl
        · exact ⟨x, hx', hx2⟩
      simp [scanTokens, hl, ih this]

theorem parseSMFile_of_fit (data : GoString) (h : LinesFit data) :
    parseSMFile data = Except.ok (parseLines (inputLines data)) := by
  unfold parseSMFile scanLines
  rw [scanTokens_fit (splitLines data) h]
  rfl

theorem parseSMFile_of_not_fit (data : GoString) (h : ¬ LinesFit data) :
    parseSMFile data = Except.error ScanError.ErrTooLong := by
  have h' : ∃ l ∈ splitLines data, MaxScanTokenSize ≤ utf8Len l := by
    unfold LinesFit at h
    push_neg at h
    exact h
  unfold parseSMFile scanLines
  rw [scanTokens_tooLong (splitLines data) h']

theorem parseSMFile_ok (data : GoString) (sd : SongData) (h : parseSMFile data = Except.ok sd) :
    LinesFit data ∧ sd = parseLines (inputLines data) := by
  by_cases hf : LinesFit data
  · rw [parseSMFile_of_fit data hf] at h
    exact ⟨hf, (Except.ok.inj h).symm⟩
  · rw [parseSMFile_of_not_fit data hf] at h
    cases h

/-! ## Charts and sections -/

theorem chartsIf_notes (m : ChartMeta) (rows : List (List GoString)) :
    (chartsIf m rows).map ChartData.Notes = [rows].filter (fun r => decide (r ≠ [])) := by
  unfold chartsIf
  by_cases h : rows = []
  · simp [h]
  · simp [h, mkChart]

theorem sectionCharts_notes (secs : List (GoString × List GoString)) : ∀ m : ChartMeta,
    (sectionCharts m secs).map ChartData.Notes =
      (secs.map (fun s => noteRows s.2)).filter (fun r => decide (r ≠ [])) := by
  induction secs with
  | nil => intro m; rfl
  | cons s secs ih =>
    intro m
    simp only [sectionCharts, List.map_append, chartsIf_notes, ih, List.map_cons]
    rw [← List.filter_append]
    rfl

theorem parseLines_notes (ls : List GoString) :
    (parseLines ls).Charts.map ChartData.Notes =
      ((leadingLines ls :: (notesSections ls).map Prod.snd).map noteRows).filter
        (fun r => decide (r ≠ [])) := by
  rw [parseLines_charts, List.map_append, chartsIf_notes, sectionCharts_notes,
    ← List.filter_append]
  simp [Function.comp_def]

theorem notesSections_fst (ls : List GoString) :
    (notesSections ls).map Prod.fst = ls.filter isNotesLine := by
  induction ls with
  | nil => rfl
  | cons l ls ih =>
    by_cases h : isNotesLine l = true
    · simp [notesSections_cons_notes l ls h, List.filter_cons, h, ih]
    · have h' : isNotesLine l = false := by simpa using h
      simp [notesSections_cons_other l ls h', List.filter_cons, h', ih]

theorem notesSections_length (ls : List GoString) :
    (notesSections ls).length = (ls.filter isNotesLine).length := by
  rw [← notesSections_fst, List.length_map]

/-- C1 (amended).  For every input text whose lines all fit the scanner's buffer and every N:
if the input has exactly N lines starting with "#NOTES:", each of them is followed, before the
next "#NOTES:" line or the end of input, by at least one line starting with ",", and no line
starting with "," precedes the first "#NOTES:" line, then parseSMFile returns a record with
exactly N charts, the k-th chart holding the note rows that follow the k-th "#NOTES:" line. -/
theorem chart_count (data : GoString) (N : Nat) (hfit : LinesFit data)
    (hN : ((inputLines data).filter isNotesLine).length = N)
    (hlead : noteRows (leadingLines (inputLines data)) = [])
    (hrows : ∀ s ∈ notesSections (inputLines data), noteRows s.2 ≠ []) :
    ∃ sd, parseSMFile data = Except.ok sd ∧ sd.Charts.length = N ∧
      sd.Charts.map ChartData.Notes =
        (notesSections (inputLines data)).map (fun s => noteRows s.2) := by
  refine ⟨_, parseSMFile_of_fit data hfit, ?_⟩
  have key : (parseLines (inputLines data)).Charts.map ChartData.Notes =
      (notesSections (inputLines data)).map (fun s => noteRows s.2) := by
    rw [parseLines_notes, List.map_cons, List.filter_cons, hlead]
    simp only [ne_eq, not_true_eq_false, decide_False, Bool.false_eq_true, ↓reduceIte,
      List.map_map]
    refine List.filter_eq_self.mpr ?_
    intro r hr
    obtain ⟨s, hs, rfl⟩ := List.mem_map.mp hr
    simpa using hrows s hs
  refine ⟨?_, key⟩
  have := congrArg List.length key
  rw [List.length_map, List.length_map, notesSections_length, hN] at this
  exact this

/-- Witness for C1: two notes sections, each with rows. -/
theorem chart_count_witness :
    ∃ sd, parseSMFile "#TITLE:t\n#NOTES:a:b:c:d\n,1,2\n0000\n#NOTES:\n,3\n,4\n".toList =
        Except.ok sd ∧ sd.Charts.length = 2 ∧
      sd.Charts.map ChartData.Notes =
        (notesSections
          (inputLines "#TITLE:t\n#NOTES:a:b:c:d\n,1,2\n0000\n#NOTES:\n,3\n,4\n".toList)).map
          (fun s => noteRows s.2) :=
  chart_count "#TITLE:t\n#NOTES:a:b:c:d\n,1,2\n0000\n#NOTES:\n,3\n,4\n".toList 2
    (by decide) (by decide) (by decide) (by decide)

/-- Counterexample to C1 as stated: the input has one "#NOTES:" line, followed by a note row,
and the result has two charts, the first made of the note row before the "#NOTES:" line. -/
theorem chart_count_counterexample :
    ((inputLines ",a\n#NOTES:\n,b".toList).filter isNotesLine).length = 1 ∧
    (∀ s ∈ notesSections (inputLines ",a\n#NOTES:\n,b".toList), noteRows s.2 ≠ []) ∧
    parseSMFile ",a\n#NOTES:\n,b".toList = Except.ok
      { Title := [], Artist := [], BPMS := [],
        Charts := [
          { ChartHeader := [], Type_ := [], Tag := [], DifficultyTag := [], Difficulty := [],
            Notes := [[[], ['a']]] },
          { ChartHeader := [], Type_ := [], Tag := [], DifficultyTag := [], Difficulty := [],
            Notes := [[[], ['b']]] }] } := by
  refine ⟨by decide, by decide, by rfl⟩

/-- Counterexample to C7 as stated: the input has M = 2 "#NOTES:" lines, the only adjacent pair
has no note row between them, the other "#NOTES:" line is followed by a note row, and the
result has 2 charts, not 1: the note row before the first "#NOTES:" line makes a chart. -/
theorem empty_section_drop_counterexample :
    ((inputLines ",a\n#NOTES:\n#NOTES:\n,b".toList).filter isNotesLine).length = 2 ∧
    notesSections (inputLines ",a\n#NOTES:\n#NOTES:\n,b".toList) =
      [("#NOTES:".toList, []), ("#NOTES:".toList, [",b".toList])] ∧
    parseSMFile ",a\n#NOTES:\n#NOTES:\n,b".toList = Except.ok
      { Title := [], Artist := [], BPMS := [],
        Charts := [
          { ChartHeader := [], Type_ := [], Tag := [], DifficultyTag := [], Difficulty := [],
            Notes := [[[], ['a']]] },
          { ChartHeader := [], Type_ := [], Tag := [], DifficultyTag := [], Difficulty := [],
            Notes := [[[], ['b']]] }] } := by
  refine ⟨by decide, by decide, by rfl⟩

/-- C7 (amended).  For every input text whose lines all fit the scanner's buffer, with M lines
starting with "#NOTES:", in which exactly one adjacent pair of such lines has no note row line
between them, every other "#NOTES:" line is followed by at least one note row, and no note
row line precedes the first "#NOTES:" line, parseSMFile returns exactly M - 1 charts. -/
theorem empty_section_drop (data : GoString) (M : Nat) (hfit : LinesFit data)
    (hM : ((inputLines data).filter isNotesLine).length = M)
    (hlead : noteRows (leadingLines (inputLines data)) = [])
    (s1 s2 : List (GoString × List GoString)) (e : GoString × List GoString)
    (hsplit : notesSections (inputLines data) = s1 ++ e :: s2) (_ : s2 ≠ [])
    (hempty : noteRows e.2 = [])
    (hrows : ∀ s ∈ s1 ++ s2, noteRows s.2 ≠ []) :
    ∃ sd, parseSMFile data = Except.ok sd ∧ sd.Charts.length = M - 1 := by
  refine ⟨_, parseSMFile_of_fit data hfit, ?_⟩
  have key : (parseLines (inputLines data)).Charts.map ChartData.Notes =
      (s1 ++ s2).map (fun s => noteRows s.2) := by
    rw [parseLines_notes, List.map_cons, List.filter_cons, hlead, hsplit]
    simp only [ne_eq, not_true_eq_false, decide_False, Bool.false_eq_true, ↓reduceIte,
      List.map_map, List.map_append, List.map_cons, List.filter_append, List.filter_cons,
      Function.comp_apply, hempty]
    congr 1
    · refine List.filter_eq_self.mpr ?_
      intro r hr
      obtain ⟨s, hs, rfl⟩ := List.mem_map.mp hr
      simpa using hrows s (List.mem_append_left _ hs)
    · refine List.filter_eq_self.mpr ?_
      intro r hr
      obtain ⟨s, hs, rfl⟩ := List.mem_map.mp hr
      simpa using hrows s (List.mem_append_right _ hs)
  have hlen := congrArg List.length key
  have hM' := notesSections_length (inputLines data)
  rw [hsplit, hM] at hM'
  simp only [List.length_map, List.length_append, List.length_cons] at hlen hM'
  omega

/-- Witness for C7: three "#NOTES:" lines, the second with no note row, two charts. -/
theorem empty_section_drop_witness :
    ∃ sd, parseSMFile "#NOTES:a:b:c:d\n,1\n#NOTES:e:f:g:h\n#NOTES:\n,2\n".toList =
      Except.ok sd ∧ sd.Charts.length = 3 - 1 :=
  empty_section_drop "#NOTES:a:b:c:d\n,1\n#NOTES:e:f:g:h\n#NOTES:\n,2\n".toList 3
    (by decide) (by decide) (by decide)
    [("#NOTES:a:b:c:d".toList, [",1".toList])] [("#NOTES:".toList, [",2".toList])]
    ("#NOTES:e:f:g:h".toList, []) (by decide) (by decide) (by decide) (by decide)

/-- C9.  For every input text, every chart in the record returned by parseSMFile has a
non-empty Notes sequence; the charts correspond, in order, to the sections (the lines before
the first "#NOTES:" line, then the lines after each "#NOTES:" line up to the next one or the end
of input) that hold at least one note row, so a "#NOTES:" line with zero note row lines
before the next "#NOTES:" line or the end of input contributes no chart. -/
theorem charts_nonempty (data : GoString) (sd : SongData)
    (h : parseSMFile data = Except.ok sd) :
    (∀ c ∈ sd.Charts, c.Notes ≠ []) ∧
    sd.Charts.map ChartData.Notes =
      ((leadingLines (inputLines data) ::
          (notesSections (inputLines data)).map Prod.snd).map noteRows).filter
        (fun r => decide (r ≠ [])) := by
  obtain ⟨-, rfl⟩ := parseSMFile_ok data sd h
  have key := parseLines_notes (inputLines data)
  refine ⟨?_, key⟩
  intro c hc
  have hmem : c.Notes ∈ (parseLines (inputLines data)).Charts.map ChartData.Notes :=
    List.mem_map_of_mem _ hc
  rw [key] at hmem
  simpa using (List.mem_filter.mp hmem).2

/-- Witness for C9: the second "#NOTES:" line has no note row and gives no chart. -/
theorem charts_nonempty_witness :
    (∀ c ∈ (parseLines (inputLines "#NOTES:a:b:c:d\n,1\n#NOTES:e:f:g:h\n".toList)).Charts,
      c.Notes ≠ []) ∧
    (parseLines (inputLines "#NOTES:a:b:c:d\n,1\n#NOTES:e:f:g:h\n".toList)).Charts.map
        ChartData.Notes =
      ((leadingLines (inputLines "#NOTES:a:b:c:d\n,1\n#NOTES:e:f:g:h\n".toList) ::
          (notesSections (inputLines "#NOTES:a:b:c:d\n,1\n#NOTES:e:f:g:h\n".toList)).map
            Prod.snd).map noteRows).filter
        (fun r => decide (r ≠ [])) :=
  charts_nonempty "#NOTES:a:b:c:d\n,1\n#NOTES:e:f:g:h\n".toList _ (by rfl)

/-! ## Lines of concrete texts -/

theorem utf8Len_cons (c : Char) (s : GoString) : utf8Len (c :: s) = c.utf8Size + utf8Len s := by
  simp [utf8Len]

theorem utf8Len_replicate (n : Nat) (c : Char) :
    utf8Len (List.replicate n c) = n * c.utf8Size := by
  induction n with
  | zero => simp [utf8Len]
  | succ n ih => rw [List.replicate_succ, utf8Len_cons, ih]; ring

theorem splitLines_noLF (l : GoString) (hne : l ≠ []) (h : '\n' ∉ l) : splitLines l = [l] := by
  induction l with
  | nil => exact absurd rfl hne
  | cons c cs ih =>
    have hc : c ≠ '\n' := fun hc => h (hc ▸ List.mem_cons_self c cs)
    have hcs : '\n' ∉ cs := fun hm => h (List.mem_cons_of_mem c hm)
    rcases cs with _ | ⟨d, ds⟩
    · simp [splitLines, hc]
    · have := ih (List.cons_ne_nil d ds) hcs
      rw [splitLines, if_neg hc, this]

theorem splitLines_append_LF (l rest : GoString) (h : '\n' ∉ l) :
    splitLines (l ++ '\n' :: rest) = l :: splitLines rest := by
  induction l with
  | nil => simp [splitLines]
  | cons c cs ih =>
    have hc : c ≠ '\n' := fun hc => h (hc ▸ List.mem_cons_self c cs)
    have hcs : '\n' ∉ cs := fun hm => h (List.mem_cons_of_mem c hm)
    rw [List.cons_append, splitLines, if_neg hc, ih hcs]

theorem dropCR_of_not_mem (l : GoString) (h : '\r' ∉ l) : dropCR l = l := by
  unfold dropCR
  rw [if_neg]
  intro hl
  exact h (List.mem_of_getLast?_eq_some hl)

/-- A line made of `n` copies of a one-byte character other than the line feed. -/
theorem replicate_line (n : Nat) (c : Char) (hc : c.utf8Size = 1) (hn : c ≠ '\n')
    (hpos : 0 < n) :
    utf8Len (List.replicate n c) = n ∧ splitLines (List.replicate n c) = [List.replicate n c] := by
  refine ⟨?_, ?_⟩
  · rw [utf8Len_replicate, hc, Nat.mul_one]
  · apply splitLines_noLF
    · intro h
      have := congrArg List.length h
      rw [List.length_replicate, List.length_nil] at this
      omega
    · intro h
      exact hn (List.eq_of_mem_replicate h).symm

theorem not_linesFit_of_line (data l : GoString) (hl : l ∈ splitLines data)
    (hlen : MaxScanTokenSize ≤ utf8Len l) : ¬ LinesFit data := by
  intro hfit
  exact absurd (hfit l hl) (Nat.not_lt.mpr hlen)

/-- Counterexample to C10 as stated: on the input made of one line of 65536 bytes (the letter
"a" repeated), parseSMFile returns the scanner's error and no record. -/
theorem no_content_failure_counterexample :
    parseSMFile (List.replicate 65536 'a') = Except.error ScanError.ErrTooLong := by
  obtain ⟨h1, h2⟩ := replicate_line 65536 'a' (by decide) (by decide) (by norm_num)
  apply parseSMFile_of_not_fit
  apply not_linesFit_of_line _ (List.replicate 65536 'a')
  · rw [h2]
    exact List.mem_singleton.mpr rfl
  · rw [h1]
    norm_num [MaxScanTokenSize]

/-- C10 (amended).  For every input text whose lines all have fewer than 65536 bytes before
their line feed or the end of input, parseSMFile returns a record and no error, whatever the
content: the record is the one built by the loop and the final append over the lines. -/
theorem no_content_failure (data : GoString) (hfit : LinesFit data) :
    ∃ sd, parseSMFile data = Except.ok sd ∧ sd = parseLines (inputLines data) :=
  ⟨_, parseSMFile_of_fit data hfit, rfl⟩

/-- Witness for C10: a text with no directive, a "#NOTES:" line with too few fields, an empty
chart body and an unrecognised line still gives a record. -/
theorem no_content_failure_witness :
    ∃ sd, parseSMFile "#NOTES:a:b\n#NOTES:\nfoo\n\n#TITLE".toList = Except.ok sd ∧
      sd = parseLines (inputLines "#NOTES:a:b\n#NOTES:\nfoo\n\n#TITLE".toList) :=
  no_content_failure "#NOTES:a:b\n#NOTES:\nfoo\n\n#TITLE".toList (by decide)

/-! ## The state after a prefix of the lines -/

theorem run_snoc (st : ParseState) (pre : List GoString) (l : GoString) :
    run st (pre ++ [l]) = parseLine (run st pre) l := by
  rw [run_append]; rfl

theorem trailingLines_snoc_notes (pre : List GoString) (l : GoString)
    (h : isNotesLine l = true) : trailingLines (pre ++ [l]) = [] := by
  simp [trailingLines, List.takeWhile_cons, h]

theorem trailingLines_snoc_other (pre : List GoString) (l : GoString)
    (h : isNotesLine l = false) : trailingLines (pre ++ [l]) = trailingLines pre ++ [l] := by
  simp [trailingLines, List.takeWhile_cons, h]

/-- The pending note rows after any prefix of the lines: the rows of the note row lines since
the last "#NOTES:" line. -/
theorem pending_notes (ls : List GoString) :
    (run initState ls).notes = noteRows (trailingLines ls) := by
  induction ls using List.reverseRecOn with
  | nil => rfl
  | append_singleton pre l ih =>
    rw [run_snoc]
    by_cases hn : isNotesLine l = true
    · rw [(parseLine_notes_view _ l hn).2.2, trailingLines_snoc_notes pre l hn]; rfl
    · have hn' : isNotesLine l = false := by simpa using hn
      rw [trailingLines_snoc_other pre l hn', noteRows_append]
      by_cases hr : isNoteRow l = true
      · rw [parseLine_row _ l hr, noteRows_cons_row l [] hr, noteRows_nil]
        simp [ih]
      · have hr' : isNoteRow l = false := by simpa using hr
        rw [(parseLine_other _ l hn' hr').2.2, noteRows_cons_other l [] hr', noteRows_nil, ih]
        simp

/-- C8 (amended).  For every input text whose lines all fit the scanner's buffer and in which
at least one note row line follows the last "#NOTES:" line (or occurs at all, if there is no
"#NOTES:" line), the last chart of the record returned by parseSMFile exists and its Notes are
exactly the tokenized rows of the note row lines that follow the last "#NOTES:" line (or of
all note row lines, if there is no "#NOTES:" line), in order. -/
theorem final_flush (data : GoString) (hfit : LinesFit data)
    (hrows : noteRows (trailingLines (inputLines data)) ≠ []) :
    ∃ sd c, parseSMFile data = Except.ok sd ∧ sd.Charts.getLast? = some c ∧
      c.Notes = noteRows (trailingLines (inputLines data)) := by
  refine ⟨_, mkChart (run initState (inputLines data)).current
    (noteRows (trailingLines (inputLines data))), parseSMFile_of_fit data hfit, ?_, rfl⟩
  unfold parseLines
  rw [finish_charts, pending_notes]
  simp [chartsIf, hrows]

/-- Witness for C8: the input ends right after two note rows (with a title line between
them). -/
theorem final_flush_witness :
    ∃ sd c, parseSMFile "#NOTES:a:b:c:d\n,1\n#NOTES:\n,2,3\n#TITLE:x\n,4".toList =
        Except.ok sd ∧ sd.Charts.getLast? = some c ∧
      c.Notes = noteRows (trailingLines
        (inputLines "#NOTES:a:b:c:d\n,1\n#NOTES:\n,2,3\n#TITLE:x\n,4".toList)) :=
  final_flush "#NOTES:a:b:c:d\n,1\n#NOTES:\n,2,3\n#TITLE:x\n,4".toList (by decide) (by decide)

theorem trailingLines_append_of_notes (pre post : List GoString)
    (h : ∃ m ∈ post, isNotesLine m = true) :
    trailingLines (pre ++ post) = trailingLines post := by
  induction post using List.reverseRecOn with
  | nil => simp at h
  | append_singleton post l ih =>
    rw [← List.append_assoc]
    by_cases hn : isNotesLine l = true
    · rw [trailingLines_snoc_notes _ l hn, trailingLines_snoc_notes _ l hn]
    · have hn' : isNotesLine l = false := by simpa using hn
      rw [trailingLines_snoc_other _ l hn', trailingLines_snoc_other _ l hn']
      congr 1
      apply ih
      obtain ⟨m, hm, hm2⟩ := h
      rcases List.mem_append.mp hm with hm' | hm'
      · exact ⟨m, hm', hm2⟩
      · rw [List.mem_singleton.mp hm'] at hm2
        exact absurd hm2 hn

theorem inputLines_append_LF (l rest : GoString) (h : '\n' ∉ l) :
    inputLines (l ++ '\n' :: rest) = dropCR l :: inputLines rest := by
  simp [inputLines, splitLines_append_LF l rest h]

theorem not_linesFit_append_LF (l rest : GoString) (h : '\n' ∉ l)
    (hlen : MaxScanTokenSize ≤ utf8Len l) : ¬ LinesFit (l ++ '\n' :: rest) := by
  apply not_linesFit_of_line _ l _ hlen
  rw [splitLines_append_LF l rest h]
  exact List.mem_cons_self _ _

/-- A text that starts with a line of 65536 letters "x": the scan fails. -/
theorem parseSMFile_longLine (rest : GoString) :
    parseSMFile (List.replicate 65536 'x' ++ '\n' :: rest) =
      Except.error ScanError.ErrTooLong := by
  apply parseSMFile_of_not_fit
  apply not_linesFit_append_LF
  · intro h
    exact absurd (List.eq_of_mem_replicate h) (by decide)
  · rw [(replicate_line 65536 'x' (by decide) (by decide) (by norm_num)).1]
    norm_num [MaxScanTokenSize]

theorem inputLines_longLine (rest : GoString) :
    inputLines (List.replicate 65536 'x' ++ '\n' :: rest) =
      [dropCR (List.replicate 65536 'x')] ++ inputLines rest := by
  rw [inputLines_append_LF]
  · rfl
  · intro h
    exact absurd (List.eq_of_mem_replicate h) (by decide)

/-- Counterexample to C8 as stated: the input ends with a note row line after its only
"#NOTES:" line, and parseSMFile returns no record (hence no last chart) but the scanner's
error, because the first line has 65536 bytes. -/
theorem final_flush_counterexample :
    noteRows (trailingLines
      (inputLines (List.replicate 65536 'x' ++ '\n' :: "#NOTES:\n,a".toList))) ≠ [] ∧
    parseSMFile (List.replicate 65536 'x' ++ '\n' :: "#NOTES:\n,a".toList) =
      Except.error ScanError.ErrTooLong := by
  refine ⟨?_, parseSMFile_longLine _⟩
  rw [inputLines_longLine, trailingLines_append_of_notes _ _ (by decide)]
  decide

/-! ## Title, artist and tempo -/

theorem title_exclusive (l : GoString) (h : HasPrefix l "#TITLE:".toList = true) :
    HasPrefix l "#ARTIST:".toList = false ∧ HasPrefix l "#BPMS:".toList = false ∧
    isNotesLine l = false ∧ isNoteRow l = false := by
  rcases l with _ | ⟨c0, _ | ⟨c1, l⟩⟩
  · simp [HasPrefix, lit_title, List.isPrefixOf] at h
  · simp [HasPrefix, lit_title, List.isPrefixOf] at h
  · simp only [HasPrefix, lit_title, List.isPrefixOf, Bool.and_eq_true, beq_iff_eq] at h
    obtain ⟨rfl, rfl, -⟩ := h
    simp [isNotesLine, isNoteRow, HasPrefix, lit_artist, lit_bpms, lit_notes, lit_comma,
      List.isPrefixOf]

theorem artist_exclusive (l : GoString) (h : HasPrefix l "#ARTIST:".toList = true) :
    HasPrefix l "#TITLE:".toList = false ∧ HasPrefix l "#BPMS:".toList = false ∧
    isNotesLine l = false ∧ isNoteRow l = false := by
  rcases l with _ | ⟨c0, _ | ⟨c1, l⟩⟩
  · simp [HasPrefix, lit_artist, List.isPrefixOf] at h
  · simp [HasPrefix, lit_artist, List.isPrefixOf] at h
  · simp only [HasPrefix, lit_artist, List.isPrefixOf, Bool.and_eq_true, beq_iff_eq] at h
    obtain ⟨rfl, rfl, -⟩ := h
    simp [isNotesLine, isNoteRow, HasPrefix, lit_title, lit_bpms, lit_notes, lit_comma,
      List.isPrefixOf]

theorem bpms_exclusive (l : GoString) (h : HasPrefix l "#BPMS:".toList = true) :
    HasPrefix l "#TITLE:".toList = false ∧ HasPrefix l "#ARTIST:".toList = false ∧
    isNotesLine l = false ∧ isNoteRow l = false := by
  rcases l with _ | ⟨c0, _ | ⟨c1, l⟩⟩
  · simp [HasPrefix, lit_bpms, List.isPrefixOf] at h
  · simp [HasPrefix, lit_bpms, List.isPrefixOf] at h
  · simp only [HasPrefix, lit_bpms, List.isPrefixOf, Bool.and_eq_true, beq_iff_eq] at h
    obtain ⟨rfl, rfl, -⟩ := h
    simp [isNotesLine, isNoteRow, HasPrefix, lit_title, lit_artist, lit_notes, lit_comma,
      List.isPrefixOf]

theorem trimPrefix_of_hasPrefix (l p : GoString) (h : HasPrefix l p = true) :
    TrimPrefix l p = l.drop p.length := by
  simp [TrimPrefix, h]

/-- The effect of one line on the title, the artist and the tempo text. -/
theorem parseLine_songData (st : ParseState) (l : GoString) :
    (parseLine st l).songData.Title =
      (if HasPrefix l "#TITLE:".toList then TrimSpace (l.drop "#TITLE:".toList.length)
        else st.songData.Title) ∧
    (parseLine st l).songData.Artist =
      (if HasPrefix l "#ARTIST:".toList then TrimSpace (l.drop "#ARTIST:".toList.length)
        else st.songData.Artist) ∧
    (parseLine st l).songData.BPMS =
      (if HasPrefix l "#BPMS:".toList then TrimSpace (l.drop "#BPMS:".toList.length)
        else st.songData.BPMS) := by
  by_cases ht : HasPrefix l "#TITLE:".toList = true
  · obtain ⟨h1, h2, -, -⟩ := title_exclusive l ht
    simp only [parseLine, ht, h1, h2, ↓reduceIte, Bool.false_eq_true,
      trimPrefix_of_hasPrefix l _ ht]
    exact ⟨trivial, trivial, trivial⟩
  · have ht' : HasPrefix l "#TITLE:".toList = false := by simpa using ht
    by_cases ha : HasPrefix l "#ARTIST:".toList = true
    · obtain ⟨-, h2, -, -⟩ := artist_exclusive l ha
      simp only [parseLine, ht', ha, h2, ↓reduceIte, Bool.false_eq_true,
        trimPrefix_of_hasPrefix l _ ha]
      exact ⟨trivial, trivial, trivial⟩
    · have ha' : HasPrefix l "#ARTIST:".toList = false := by simpa using ha
      by_cases hb : HasPrefix l "#BPMS:".toList = true
      · simp only [parseLine, ht', ha', hb, ↓reduceIte, Bool.false_eq_true,
          trimPrefix_of_hasPrefix l _ hb]
        exact ⟨trivial, trivial, trivial⟩
      · have hb' : HasPrefix l "#BPMS:".toList = false := by simpa using hb
        simp only [ht', ha', hb', ↓reduceIte, Bool.false_eq_true]
        by_cases hn : isNotesLine l = true
        · rw [parseLine_notes st l hn, (parseNotesMeta_view _ l).1]
          obtain ⟨-, -, -, t1, t2, t3⟩ := sealPending_view st
          exact ⟨t1, t2, t3⟩
        · have hn' : isNotesLine l = false := by simpa using hn
          simp only [isNotesLine] at hn'
          simp only [parseLine, ht', ha', hb', hn', ↓reduceIte, Bool.false_eq_true]
          split_ifs <;> exact ⟨rfl, rfl, rfl⟩

theorem lastWithPrefix_snoc (marker : GoString) (pre : List GoString) (l : GoString) :
    lastWithPrefix marker (pre ++ [l]) =
      if HasPrefix l marker then some l else lastWithPrefix marker pre := by
  unfold lastWithPrefix
  by_cases h : HasPrefix l marker = true
  · simp [List.filter_append, h]
  · have h' : HasPrefix l marker = false := by simpa using h
    simp [List.filter_append, h']

theorem directiveText_snoc (marker : GoString) (pre : List GoString) (l : GoString) :
    directiveText marker (pre ++ [l]) =
      if HasPrefix l marker then TrimSpace (l.drop marker.length)
      else directiveText marker pre := by
  unfold directiveText
  rw [lastWithPrefix_snoc]
  split_ifs <;> rfl

theorem run_songData (ls : List GoString) :
    (run initState ls).songData.Title = directiveText "#TITLE:".toList ls ∧
    (run initState ls).songData.Artist = directiveText "#ARTIST:".toList ls ∧
    (run initState ls).songData.BPMS = directiveText "#BPMS:".toList ls := by
  induction ls using List.reverseRecOn with
  | nil => exact ⟨rfl, rfl, rfl⟩
  | append_singleton pre l ih =>
    obtain ⟨h1, h2, h3⟩ := parseLine_songData (run initState pre) l
    rw [run_snoc, h1, h2, h3, directiveText_snoc, directiveText_snoc, directiveText_snoc,
      ih.1, ih.2.1, ih.2.2]
    exact ⟨rfl, rfl, rfl⟩

theorem finish_songData (st : ParseState) :
    (finish st).Title = st.songData.Title ∧ (finish st).Artist = st.songData.Artist ∧
    (finish st).BPMS = st.songData.BPMS := by
  unfold finish
  split_ifs <;> exact ⟨rfl, rfl, rfl⟩

/-- C2 (amended).  For every input text whose lines all fit the scanner's buffer and which
contains a line that starts with "#TITLE:", a line that starts with "#ARTIST:" and a line that
starts with "#BPMS:", parseSMFile returns a record whose Title, Artist and BPMS each equal the
text following the respective marker on the last such line, with leading and trailing
white space removed and nothing else stripped. -/
theorem metadata_extraction (data lt la lb : GoString) (hfit : LinesFit data)
    (ht : lastWithPrefix "#TITLE:".toList (inputLines data) = some lt)
    (ha : lastWithPrefix "#ARTIST:".toList (inputLines data) = some la)
    (hb : lastWithPrefix "#BPMS:".toList (inputLines data) = some lb) :
    ∃ sd, parseSMFile data = Except.ok sd ∧
      sd.Title = TrimSpace (lt.drop "#TITLE:".toList.length) ∧
      sd.Artist = TrimSpace (la.drop "#ARTIST:".toList.length) ∧
      sd.BPMS = TrimSpace (lb.drop "#BPMS:".toList.length) := by
  refine ⟨_, parseSMFile_of_fit data hfit, ?_⟩
  obtain ⟨f1, f2, f3⟩ := finish_songData (run initState (inputLines data))
  obtain ⟨r1, r2, r3⟩ := run_songData (inputLines data)
  unfold parseLines
  rw [f1, f2, f3, r1, r2, r3]
  simp only [directiveText, ht, ha, hb]
  exact ⟨trivial, trivial, trivial⟩

/-- Witness for C2: the lines "#TITLE:My Song;" and "#ARTIST:  Someone ;" of the specification's
scenario (after an earlier title line that is overridden) give the title "My Song;" and the
artist "Someone ;". -/
theorem metadata_extraction_witness :
    ∃ sd, parseSMFile
        "#TITLE:old\r\n#TITLE:My Song;\r\n#ARTIST:  Someone ;\n#BPMS:120.0;\n".toList =
        Except.ok sd ∧
      sd.Title = TrimSpace ("#TITLE:My Song;".toList.drop "#TITLE:".toList.length) ∧
      sd.Artist = TrimSpace ("#ARTIST:  Someone ;".toList.drop "#ARTIST:".toList.length) ∧
      sd.BPMS = TrimSpace ("#BPMS:120.0;".toList.drop "#BPMS:".toList.length) :=
  metadata_extraction
    "#TITLE:old\r\n#TITLE:My Song;\r\n#ARTIST:  Someone ;\n#BPMS:120.0;\n".toList
    "#TITLE:My Song;".toList "#ARTIST:  Someone ;".toList "#BPMS:120.0;".toList
    (by decide) (by decide) (by decide) (by decide)

theorem lastWithPrefix_append_of_some (marker : GoString) (pre post : List GoString)
    (v : GoString) (h : lastWithPrefix marker post = some v) :
    lastWithPrefix marker (pre ++ post) = some v := by
  unfold lastWithPrefix at h ⊢
  rw [List.filter_append, List.getLast?_append, h]
  rfl

/-- Counterexample to C2 as stated: the input contains the lines "#TITLE:My Song;",
"#ARTIST:  Someone ;" and "#BPMS:120.0;", and parseSMFile returns no record but the scanner's
error, because the first line has 65536 bytes. -/
theorem metadata_extraction_counterexample :
    lastWithPrefix "#TITLE:".toList (inputLines (List.replicate 65536 'x' ++ '\n' ::
      "#TITLE:My Song;\n#ARTIST:  Someone ;\n#BPMS:120.0;".toList)) =
        some "#TITLE:My Song;".toList ∧
    lastWithPrefix "#ARTIST:".toList (inputLines (List.replicate 65536 'x' ++ '\n' ::
      "#TITLE:My Song;\n#ARTIST:  Someone ;\n#BPMS:120.0;".toList)) =
        some "#ARTIST:  Someone ;".toList ∧
    lastWithPrefix "#BPMS:".toList (inputLines (List.replicate 65536 'x' ++ '\n' ::
      "#TITLE:My Song;\n#ARTIST:  Someone ;\n#BPMS:120.0;".toList)) =
        some "#BPMS:120.0;".toList ∧
    parseSMFile (List.replicate 65536 'x' ++ '\n' ::
      "#TITLE:My Song;\n#ARTIST:  Someone ;\n#BPMS:120.0;".toList) =
      Except.error ScanError.ErrTooLong := by
  refine ⟨?_, ?_, ?_, parseSMFile_longLine _⟩
  · rw [inputLines_longLine]
    exact lastWithPrefix_append_of_some _ _ _ _ (by decide)
  · rw [inputLines_longLine]
    exact lastWithPrefix_append_of_some _ _ _ _ (by decide)
  · rw [inputLines_longLine]
    exact lastWithPrefix_append_of_some _ _ _ _ (by decide)

/-! ## Splitting and trimming -/

theorem trimSpace_eq (s : GoString) :
    TrimSpace s = List.rdropWhile IsSpace (s.dropWhile IsSpace) := rfl

theorem split_no_sep (t : GoString) (sep : Char) (h : sep ∉ t) : Split t sep = [t] := by
  induction t with
  | nil => rfl
  | cons c cs ih =>
    have hc : c ≠ sep := fun hc => h (hc ▸ List.mem_cons_self c cs)
    have hcs : sep ∉ cs := fun hm => h (List.mem_cons_of_mem c hm)
    rw [Split, if_neg hc, ih hcs]

theorem split_append_sep (t rest : GoString) (sep : Char) (h : sep ∉ t) :
    Split (t ++ sep :: rest) sep = t :: Split rest sep := by
  induction t with
  | nil => simp [Split]
  | cons c cs ih =>
    have hc : c ≠ sep := fun hc => h (hc ▸ List.mem_cons_self c cs)
    have hcs : sep ∉ cs := fun hm => h (List.mem_cons_of_mem c hm)
    rw [List.cons_append, Split, if_neg hc, ih hcs]

theorem rowLine_nil : rowLine [] = [] := rfl

theorem rowLine_cons (t : GoString) (ts : List GoString) :
    rowLine (t :: ts) = ',' :: (t ++ rowLine ts) := by
  simp [rowLine]

theorem rowLine_snoc (ts : List GoString) (t : GoString) :
    rowLine (ts ++ [t]) = rowLine ts ++ ',' :: t := by
  simp [rowLine]

theorem split_token_rowLine (ts : List GoString) (h : ∀ t ∈ ts, ',' ∉ t) :
    ∀ t : GoString, ',' ∉ t → Split (t ++ rowLine ts) ',' = t :: ts := by
  induction ts with
  | nil =>
    intro t ht
    rw [rowLine_nil, List.append_nil, split_no_sep t ',' ht]
  | cons u us ih =>
    intro t ht
    rw [rowLine_cons, split_append_sep t _ ',' ht,
      ih (fun x hx => h x (List.mem_cons_of_mem u hx)) u (h u (List.mem_cons_self u us))]

theorem split_rowLine (ts : List GoString) (h : ∀ t ∈ ts, ',' ∉ t) :
    Split (rowLine ts) ',' = [] :: ts := by
  have := split_token_rowLine ts h [] (by simp)
  simpa using this

theorem rdropWhile_fixed_of_trimSpace (t : GoString) (h : TrimSpace t = t) :
    List.rdropWhile IsSpace t = t := by
  have h1 : (t.dropWhile IsSpace).length ≤ t.length := (List.dropWhile_suffix IsSpace).length_le
  have h2 : (TrimSpace t).length ≤ (t.dropWhile IsSpace).length := by
    rw [trimSpace_eq]
    exact (List.rdropWhile_prefix IsSpace _).length_le
  rw [h] at h2
  have h3 : t.dropWhile IsSpace = t := (List.dropWhile_suffix IsSpace).eq_of_length_le h2
  rw [trimSpace_eq, h3] at h
  exact h

theorem last_of_trimSpace_fixed (t : GoString) (h : TrimSpace t = t) :
    t = [] ∨ ∃ u c, t = u ++ [c] ∧ IsSpace c = false := by
  have hr := rdropWhile_fixed_of_trimSpace t h
  rcases List.eq_nil_or_concat t with rfl | ⟨u, c, rfl⟩
  · exact Or.inl rfl
  · right
    rw [List.concat_eq_append] at hr ⊢
    refine ⟨u, c, rfl, ?_⟩
    by_contra hc
    have hc' : IsSpace c = true := by simpa using hc
    rw [List.rdropWhile_concat_pos _ _ _ hc'] at hr
    have := (List.rdropWhile_prefix IsSpace u).length_le
    rw [hr] at this
    simp at this

theorem trimSpace_rowLine (ts : List GoString) (hne : ts ≠ [])
    (h : ∀ t ∈ ts, TrimSpace t = t) : TrimSpace (rowLine ts) = rowLine ts := by
  have hd : (rowLine ts).dropWhile IsSpace = rowLine ts := by
    rcases ts with _ | ⟨t, ts⟩
    · exact absurd rfl hne
    · rw [rowLine_cons]
      exact List.dropWhile_cons_of_neg (by decide)
  rw [trimSpace_eq, hd]
  rcases List.eq_nil_or_concat ts with rfl | ⟨us, t, rfl⟩
  · exact absurd rfl hne
  · rw [List.concat_eq_append] at h ⊢
    rw [rowLine_snoc]
    rcases last_of_trimSpace_fixed t (h t (by simp)) with rfl | ⟨u, c, rfl, hc⟩
    · exact List.rdropWhile_concat_neg _ _ _ (by decide)
    · have : rowLine us ++ ',' :: (u ++ [c]) = (rowLine us ++ ',' :: u) ++ [c] := by simp
      rw [this]
      exact List.rdropWhile_concat_neg _ _ _ (by simp [hc])

theorem isNoteRow_rowLine (ts : List GoString) (hne : ts ≠ []) :
    isNoteRow (rowLine ts) = true := by
  rcases ts with _ | ⟨t, ts⟩
  · exact absurd rfl hne
  · rw [rowLine_cons]
    exact (noteRow_iff _).mpr ⟨_, rfl⟩

/-- Counterexample to C5 as stated: the lines ",A,B,C" and ",1000,0101" append the rows
["", "A", "B", "C"] and ["", "1000", "0101"], whose first token is the empty text before the
leading comma; they do not append ["A", "B", "C"] and ["1000", "0101"]. -/
theorem row_tokenization_counterexample :
    (parseLine initState ",A,B,C".toList).notes =
        [[[], "A".toList, "B".toList, "C".toList]] ∧
    (parseLine initState ",A,B,C".toList).notes ≠ [["A".toList, "B".toList, "C".toList]] ∧
    (parseLine initState ",1000,0101".toList).notes =
        [[[], "1000".toList, "0101".toList]] ∧
    (parseLine initState ",1000,0101".toList).notes ≠ [["1000".toList, "0101".toList]] := by
  refine ⟨by decide, by decide, by decide, by decide⟩

/-- C5 (amended).  For every list of tokens t1..tn (n >= 1) that contain no comma and no
leading or trailing white space, a note row line ",t1,...,tn" makes the loop append exactly the
row ["", t1, ..., tn] to the current chart's notes and change nothing else: the first token of
the row is the empty text before the leading comma. -/
theorem row_tokenization (st : ParseState) (ts : List GoString) (hne : ts ≠ [])
    (hcomma : ∀ t ∈ ts, ',' ∉ t) (htrim : ∀ t ∈ ts, TrimSpace t = t) :
    parseLine st (rowLine ts) = { st with notes := st.notes ++ [[] :: ts] } := by
  rw [parseLine_row st _ (isNoteRow_rowLine ts hne), tokenizeRow, trimSpace_rowLine ts hne htrim,
    split_rowLine ts hcomma]

/-- Witness for C5: the line ",1000,0101" after one pending row. -/
theorem row_tokenization_witness :
    parseLine { initState with notes := [[[], "0001".toList]] }
        (rowLine ["1000".toList, "0101".toList]) =
      { initState with notes := [[[], "0001".toList]] ++ [[] :: ["1000".toList, "0101".toList]] } :=
  row_tokenization { initState with notes := [[[], "0001".toList]] }
    ["1000".toList, "0101".toList] (by decide) (by decide) (by decide)

/-! ## Trimming a text before splitting it -/

theorem split_exists (s : GoString) (sep : Char) : ∃ f fs, Split s sep = f :: fs := by
  induction s with
  | nil => exact ⟨[], [], rfl⟩
  | cons c cs ih =>
    obtain ⟨f, fs, h⟩ := ih
    by_cases hc : c = sep
    · exact ⟨[], Split cs sep, by rw [Split, if_pos hc]⟩
    · exact ⟨c :: f, fs, by rw [Split, if_neg hc, h]⟩

theorem split_cons_sep (cs : GoString) (sep : Char) :
    Split (sep :: cs) sep = [] :: Split cs sep := by
  rw [Split, if_pos rfl]

theorem split_cons_ne (c : Char) (cs f : GoString) (fs : List GoString) (sep : Char)
    (hc : c ≠ sep) (h : Split cs sep = f :: fs) : Split (c :: cs) sep = (c :: f) :: fs := by
  rw [Split, if_neg hc, h]

theorem rdropWhile_cons (p : Char → Bool) (c : Char) (cs : List Char) :
    List.rdropWhile p (c :: cs) =
      if List.rdropWhile p cs = [] ∧ p c = true then [] else c :: List.rdropWhile p cs := by
  induction cs using List.reverseRecOn with
  | nil =>
    by_cases hc : p c = true
    · simp [List.rdropWhile, hc]
    · simp [List.rdropWhile, hc]
  | append_singleton ds d ih =>
    rw [← List.cons_append]
    by_cases hd : p d = true
    · rw [List.rdropWhile_concat_pos _ _ _ hd, List.rdropWhile_concat_pos _ _ _ hd, ih]
    · rw [List.rdropWhile_concat_neg _ _ _ hd, List.rdropWhile_concat_neg _ _ _ hd]
      simp

theorem dropWhile_rdropWhile_comm (p : Char → Bool) (s : List Char) :
    List.rdropWhile p (s.dropWhile p) = (List.rdropWhile p s).dropWhile p := by
  induction s with
  | nil => simp [List.rdropWhile]
  | cons c cs ih =>
    rw [rdropWhile_cons]
    by_cases hc : p c = true
    · rw [List.dropWhile_cons_of_pos hc, ih]
      by_cases hr : List.rdropWhile p cs = []
      · simp [hr, hc]
      · simp [hr, hc]
    · rw [List.dropWhile_cons_of_neg hc, rdropWhile_cons]
      simp [hc]

theorem trimSpace_comm (s : GoString) :
    TrimSpace s = (List.rdropWhile IsSpace s).dropWhile IsSpace := by
  rw [trimSpace_eq, dropWhile_rdropWhile_comm]

theorem split_dropWhile (sep : Char) (hsep : IsSpace sep = false) (s : GoString) :
    (Split (s.dropWhile IsSpace) sep).map (List.dropWhile IsSpace) =
      (Split s sep).map (List.dropWhile IsSpace) := by
  induction s with
  | nil => rfl
  | cons c cs ih =>
    by_cases hc : IsSpace c = true
    · have hne : c ≠ sep := by
        intro h; rw [h, hsep] at hc; exact absurd hc (by decide)
      obtain ⟨f, fs, hf⟩ := split_exists cs sep
      rw [List.dropWhile_cons_of_pos hc, ih, split_cons_ne c cs f fs sep hne hf, hf]
      simp [List.dropWhile_cons_of_pos hc]
    · rw [List.dropWhile_cons_of_neg hc]

theorem split_rdropWhile (sep : Char) (hsep : IsSpace sep = false) (s : GoString) :
    (Split (List.rdropWhile IsSpace s) sep).map (List.rdropWhile IsSpace) =
      (Split s sep).map (List.rdropWhile IsSpace) := by
  induction s with
  | nil => rfl
  | cons c cs ih =>
    rw [rdropWhile_cons]
    by_cases hc : c = sep
    · subst hc
      simp only [hsep, Bool.false_eq_true, and_false, ↓reduceIte]
      rw [split_cons_sep, split_cons_sep, List.map_cons, List.map_cons, ih]
    · obtain ⟨f, fs, hf⟩ := split_exists cs sep
      obtain ⟨g, gs, hg⟩ := split_exists (List.rdropWhile IsSpace cs) sep
      rw [hf, hg, List.map_cons, List.map_cons] at ih
      obtain ⟨ih1, ih2⟩ := List.cons.inj ih
      rw [split_cons_ne c cs f fs sep hc hf]
      by_cases hr : List.rdropWhile IsSpace cs = [] ∧ IsSpace c = true
      · rw [if_pos hr]
        have hall : ∀ x ∈ cs, IsSpace x = true := List.rdropWhile_eq_nil_iff.mp hr.1
        have hnot : sep ∉ cs := by
          intro hm
          have := hall sep hm
          rw [hsep] at this
          exact absurd this (by decide)
        rw [split_no_sep cs sep hnot] at hf
        obtain ⟨rfl, rfl⟩ := List.cons.inj hf
        simp [Split, rdropWhile_cons, hr.1, hr.2]
      · rw [if_neg hr, split_cons_ne c _ g gs sep hc hg, List.map_cons, List.map_cons,
          rdropWhile_cons, rdropWhile_cons IsSpace c f, ih1, ih2]

/-- Trimming a text before splitting it on a separator that is not white space does not
change the number of fields nor the trimmed fields. -/
theorem split_trimSpace (sep : Char) (hsep : IsSpace sep = false) (s : GoString) :
    (Split (TrimSpace s) sep).map TrimSpace = (Split s sep).map TrimSpace := by
  have e1 : ∀ xs : List GoString, xs.map TrimSpace =
      (xs.map (List.rdropWhile IsSpace)).map (List.dropWhile IsSpace) := by
    intro xs
    rw [List.map_map]
    exact List.map_congr_left (fun x _ => trimSpace_comm x)
  have e2 : ∀ xs : List GoString, xs.map TrimSpace =
      (xs.map (List.dropWhile IsSpace)).map (List.rdropWhile IsSpace) := by
    intro xs
    rw [List.map_map]
    exact List.map_congr_left (fun x _ => trimSpace_eq x)
  rw [e1 (Split (TrimSpace s) sep), trimSpace_eq, split_rdropWhile sep hsep, ← e1, e2,
    split_dropWhile sep hsep, ← e2]

/-! ## The metadata of a "#NOTES:" line -/

theorem splitN_two (l : GoString) (sep : Char) :
    SplitN l sep 2 = match Cut sep l with
      | none => [l]
      | some (a, b) => [a, b] := by
  rw [SplitN]
  cases Cut sep l with
  | none => rfl
  | some ab => rfl

/-- The effect of a "#NOTES:" line on the current metadata values, in terms of the fields of
the line: the first four fields, trimmed, when there are 4 fields or more, no change
otherwise. -/
theorem stepMeta_eq (m : ChartMeta) (l : GoString) :
    stepMeta m l = if 4 ≤ (notesFields l).length then metaOfLine (some l) else m := by
  have hmeta : metaOfLine (some l) =
      (TrimSpace ((notesFields l).getD 0 []), TrimSpace ((notesFields l).getD 1 []),
        TrimSpace ((notesFields l).getD 2 []), TrimSpace ((notesFields l).getD 3 [])) := rfl
  rw [hmeta]
  unfold stepMeta
  rw [splitN_two]
  cases hcut : Cut ':' l with
  | none =>
    have hnf : notesFields l = [[]] := by simp [notesFields, afterFirstColon, hcut, Split]
    simp [hnf]
  | some ab =>
    obtain ⟨a, b⟩ := ab
    have hnf : notesFields l = Split b ':' := by simp [notesFields, afterFirstColon, hcut]
    rw [hnf]
    have hXY := split_trimSpace ':' (by decide) b
    simp only
    generalize Split (TrimSpace b) ':' = X at hXY
    generalize Split b ':' = Y at hXY
    rcases X with _ | ⟨x0, _ | ⟨x1, _ | ⟨x2, _ | ⟨x3, xs⟩⟩⟩⟩ <;>
      rcases Y with _ | ⟨y0, _ | ⟨y1, _ | ⟨y2, _ | ⟨y3, ys⟩⟩⟩⟩ <;>
      simp at hXY <;> simp [hXY]

theorem parseLine_few_fields (st : ParseState) (l : GoString) (hn : isNotesLine l = true)
    (hfew : (notesFields l).length < 4) : (parseLine st l).current = st.current := by
  rw [(parseLine_notes_view st l hn).2.1, stepMeta_eq, if_neg (Nat.not_le.mpr hfew)]

theorem lastMetaLine_snoc (pre : List GoString) (l : GoString) :
    lastMetaLine (pre ++ [l]) =
      if isNotesLine l = true ∧ 4 ≤ (notesFields l).length then some l
      else lastMetaLine pre := by
  unfold lastMetaLine
  by_cases h : isNotesLine l = true ∧ 4 ≤ (notesFields l).length
  · simp [List.filter_append, h.1, h.2]
  · rw [if_neg h]
    have : (isNotesLine l && decide (4 ≤ (notesFields l).length)) = false := by
      rcases not_and_or.mp h with h1 | h2
      · simp [h1]
      · simp [h2]
    simp [List.filter_append, this]

/-- The current metadata values after any prefix of the lines: those of the last "#NOTES:" line
with 4 fields or more, or empty strings. -/
theorem current_after (ls : List GoString) :
    (run initState ls).current = metaOfLine (lastMetaLine ls) := by
  induction ls using List.reverseRecOn with
  | nil => rfl
  | append_singleton pre l ih =>
    rw [run_snoc, lastMetaLine_snoc]
    by_cases hn : isNotesLine l = true
    · rw [(parseLine_notes_view _ l hn).2.1, stepMeta_eq, ih]
      by_cases h4 : 4 ≤ (notesFields l).length
      · rw [if_pos h4, if_pos ⟨hn, h4⟩]
      · rw [if_neg h4, if_neg (fun h => h4 h.2)]
    · have hn' : isNotesLine l = false := by simpa using hn
      rw [if_neg (fun h => hn h.1), ← ih]
      by_cases hr : isNoteRow l = true
      · rw [parseLine_row _ l hr]; rfl
      · have hr' : isNoteRow l = false := by simpa using hr
        exact (parseLine_other _ l hn' hr').2.1

/-! ## The first note row of each chart -/

theorem chartsIf_length (m : ChartMeta) (rows : List (List GoString)) :
    (chartsIf m rows).length = if rows = [] then 0 else 1 := by
  unfold chartsIf
  split_ifs <;> rfl

theorem chartsIf_of_ne (m : ChartMeta) (rows : List (List GoString)) (h : rows ≠ []) :
    chartsIf m rows = [mkChart m rows] := by
  simp [chartsIf, h]

/-- Every chart sealed after a given state starts at a note row line met when no row is
pending, and the charts sealed before that line are exactly those that precede it. -/
theorem exists_start (ls : List GoString) : ∀ (st : ParseState) (k : Nat),
    st.songData.Charts.length + (if st.notes = [] then 0 else 1) ≤ k →
    k < (finish (run st ls)).Charts.length →
    ∃ pre row post, ls = pre ++ row :: post ∧ isNoteRow row = true ∧
      (run st pre).notes = [] ∧ (run st pre).songData.Charts.length = k := by
  induction ls with
  | nil =>
    intro st k hlo hhi
    rw [run_nil, finish_charts, List.length_append, chartsIf_length] at hhi
    omega
  | cons l ls ih =>
    intro st k hlo hhi
    rw [run_cons] at hhi
    by_cases hk : (parseLine st l).songData.Charts.length +
        (if (parseLine st l).notes = [] then 0 else 1) ≤ k
    · obtain ⟨pre, row, post, h1, h2, h3, h4⟩ := ih (parseLine st l) k hk hhi
      exact ⟨l :: pre, row, post, by rw [h1]; rfl, h2, by rw [run_cons]; exact h3,
        by rw [run_cons]; exact h4⟩
    · by_cases hn : isNotesLine l = true
      · obtain ⟨h1, -, h3⟩ := parseLine_notes_view st l hn
        rw [h1, h3, List.length_append, chartsIf_length] at hk
        simp only [↓reduceIte, Nat.add_zero] at hk
        omega
      · have hn' : isNotesLine l = false := by simpa using hn
        by_cases hr : isNoteRow l = true
        · rw [parseLine_row st l hr] at hk
          simp only [List.append_eq_nil, List.cons_ne_self, and_false, ↓reduceIte] at hk
          have hnotes : st.notes = [] := by
            by_contra hne
            rw [if_neg hne] at hlo
            omega
          rw [if_pos hnotes] at hlo
          exact ⟨[], l, ls, rfl, hr, hnotes, by rw [run_nil]; omega⟩
        · have hr' : isNoteRow l = false := by simpa using hr
          obtain ⟨h1, -, h3⟩ := parseLine_other st l hn' hr'
          rw [h1, h3] at hk
          omega

/-- The record built from lines `pre ++ row :: post`, where `row` is a note row line met when
no row is pending: the charts sealed from `pre`, then the chart that starts at `row`. -/
theorem charts_at_start (pre post : List GoString) (row : GoString)
    (hrow : isNoteRow row = true) (hpend : (run initState pre).notes = []) :
    (parseLines pre).Charts = (run initState pre).songData.Charts ∧
    ∃ rest, (parseLines (pre ++ row :: post)).Charts =
      (run initState pre).songData.Charts ++
        mkChart (run initState pre).current
          (tokenizeRow row :: noteRows (leadingLines post)) :: rest := by
  constructor
  · unfold parseLines
    rw [finish_charts, hpend]
    simp [chartsIf]
  · refine ⟨sectionCharts (run initState pre).current (notesSections post), ?_⟩
    unfold parseLines
    rw [run_append, run_cons, charts_run, parseLine_row _ row hrow]
    simp only [hpend, List.nil_append, List.singleton_append]
    rw [chartsIf_of_ne _ _ (List.cons_ne_nil _ _)]
    simp [ParseState.current]

/-- C3.  For every input text and every chart in the result of parseSMFile, say the k-th:
its first note row is the tokenized note row line `row` found after lines `pre`, where no
note row lies between the last "#NOTES:" line of `pre` and `row` and the lines `pre` alone
give exactly the k charts before it; with L the last line of `pre` that starts with "#NOTES:"
and whose text after the first colon splits on ":" into 4 or more fields, the chart's Type,
Tag, Difficulty and DifficultyTag equal fields 0, 1, 2 and 3 of L, each trimmed, and are all
the empty string if there is no such line.  A "#NOTES:" line with fewer than 4 fields changes
none of the four current values. -/
theorem metadata_assignment (data : GoString) (sd : SongData)
    (h : parseSMFile data = Except.ok sd) :
    (∀ (k : Nat) (c : ChartData), sd.Charts[k]? = some c →
      ∃ pre row post, inputLines data = pre ++ row :: post ∧ isNoteRow row = true ∧
        noteRows (trailingLines pre) = [] ∧ (parseLines pre).Charts = sd.Charts.take k ∧
        c.Notes.head? = some (tokenizeRow row) ∧
        c.chartMeta = metaOfLine (lastMetaLine pre)) ∧
    (∀ (st : ParseState) (l : GoString), isNotesLine l = true → (notesFields l).length < 4 →
      (parseLine st l).current = st.current) := by
  obtain ⟨-, rfl⟩ := parseSMFile_ok data sd h
  refine ⟨?_, parseLine_few_fields⟩
  intro k c hc
  have hk : k < (parseLines (inputLines data)).Charts.length := by
    by_contra hge
    rw [List.getElem?_eq_none (Nat.not_lt.mp hge)] at hc
    cases hc
  obtain ⟨pre, row, post, hsplit, hrow, hpend, hlen⟩ :=
    exists_start (inputLines data) initState k (by simp [initState]) hk
  obtain ⟨hpre, rest, hall⟩ := charts_at_start pre post row hrow hpend
  rw [← hsplit] at hall
  refine ⟨pre, row, post, hsplit, hrow, ?_, ?_, ?_, ?_⟩
  · rw [← pending_notes, hpend]
  · rw [hpre, hall, ← hlen, List.take_left']
    rfl
  · rw [hall, ← hlen, List.getElem?_append_right (Nat.le_refl _)] at hc
    simp only [Nat.sub_self, List.getElem?_cons_zero, Option.some.injEq] at hc
    rw [← hc]
    rfl
  · rw [hall, ← hlen, List.getElem?_append_right (Nat.le_refl _)] at hc
    simp only [Nat.sub_self, List.getElem?_cons_zero, Option.some.injEq] at hc
    rw [← hc, ← current_after]
    rfl

/-- Witness for C3: a chart under a "#NOTES:" line with five fields, and a chart under a
"#NOTES:" line with two fields that keeps the values of the first. -/
theorem metadata_assignment_witness :
    (∀ (k : Nat) (c : ChartData),
      (parseLines (inputLines
        "#NOTES: t : g :Hard: 8 :zz\r\n,1000,0101 \r\n,x\n#NOTES:\n#NOTES:q:r\n,y\n".toList)).Charts[k]?
          = some c →
      ∃ pre row post,
        inputLines
          "#NOTES: t : g :Hard: 8 :zz\r\n,1000,0101 \r\n,x\n#NOTES:\n#NOTES:q:r\n,y\n".toList =
          pre ++ row :: post ∧ isNoteRow row = true ∧
        noteRows (trailingLines pre) = [] ∧
        (parseLines pre).Charts = (parseLines (inputLines
          "#NOTES: t : g :Hard: 8 :zz\r\n,1000,0101 \r\n,x\n#NOTES:\n#NOTES:q:r\n,y\n".toList)).Charts.take k ∧
        c.Notes.head? = some (tokenizeRow row) ∧
        c.chartMeta = metaOfLine (lastMetaLine pre)) ∧
    (∀ (st : ParseState) (l : GoString), isNotesLine l = true → (notesFields l).length < 4 →
      (parseLine st l).current = st.current) :=
  metadata_assignment
    "#NOTES: t : g :Hard: 8 :zz\r\n,1000,0101 \r\n,x\n#NOTES:\n#NOTES:q:r\n,y\n".toList _ (by rfl)

/-! ## Carry-over of the metadata values -/

/-- Counterexample to C6 as stated: the second "#NOTES:" line has one field and is followed by
a note row; no chart precedes the chart it produces, yet that chart's values are not empty
but those of the first "#NOTES:" line, whose section had no rows and gave no chart. -/
theorem field_carry_over_counterexample :
    (notesFields "#NOTES:".toList).length = 1 ∧
    parseSMFile "#NOTES:a:b:c:d\n#NOTES:\n,x".toList = Except.ok
      { Title := [], Artist := [], BPMS := [],
        Charts := [
          { ChartHeader := [], Type_ := ['a'], Tag := ['b'], DifficultyTag := ['d'],
            Difficulty := ['c'], Notes := [[[], ['x']]] }] } := by
  refine ⟨by decide, by rfl⟩

/-- C6 (amended).  For every input text whose lines all fit the scanner's buffer, a line
starting with "#NOTES:" that has fewer than 4 colon-delimited fields after the marker and is
followed, before the next "#NOTES:" line, by at least one note row produces a chart (right
after the charts of the lines before it) whose Type, Tag, Difficulty and DifficultyTag are
fields 0 to 3, trimmed, of the last earlier "#NOTES:" line with 4 fields or more, or are all
empty strings if there is no such line; they equal those of the chart immediately preceding
it whenever a note row lies between the previous "#NOTES:" line (or the start of the input)
and this line. -/
theorem field_carry_over (data : GoString) (pre post : List GoString) (l : GoString)
    (hfit : LinesFit data) (hsplit : inputLines data = pre ++ l :: post)
    (hn : isNotesLine l = true) (hfew : (notesFields l).length < 4)
    (hrows : noteRows (leadingLines post) ≠ []) :
    ∃ sd c, parseSMFile data = Except.ok sd ∧
      sd.Charts.take (parseLines pre).Charts.length = (parseLines pre).Charts ∧
      sd.Charts[(parseLines pre).Charts.length]? = some c ∧
      c.Notes = noteRows (leadingLines post) ∧
      c.chartMeta = metaOfLine (lastMetaLine pre) ∧
      (noteRows (trailingLines pre) ≠ [] →
        ∃ c', sd.Charts[(parseLines pre).Charts.length - 1]? = some c' ∧
          c'.chartMeta = c.chartMeta) := by
  have hP : (parseLines pre).Charts = (run initState pre).songData.Charts ++
      chartsIf (run initState pre).current (run initState pre).notes := by
    unfold parseLines
    rw [finish_charts]
  have hall : (parseLines (inputLines data)).Charts =
      (parseLines pre).Charts ++
        mkChart (run initState pre).current (noteRows (leadingLines post)) ::
          sectionCharts (run initState pre).current (notesSections post) := by
    rw [hP, hsplit]
    unfold parseLines
    obtain ⟨h1, h2, h3⟩ := parseLine_notes_view (run initState pre) l hn
    rw [run_append, run_cons, charts_run, h1, h2, h3, stepMeta_eq,
      if_neg (Nat.not_le.mpr hfew), List.nil_append, chartsIf_of_ne _ _ hrows]
    simp
  refine ⟨_, mkChart (run initState pre).current (noteRows (leadingLines post)),
    parseSMFile_of_fit data hfit, ?_, ?_, rfl, ?_, ?_⟩
  · rw [hall, List.take_left']
    rfl
  · rw [hall, List.getElem?_append_right (Nat.le_refl _)]
    simp
  · rw [← current_after]
    rfl
  · intro hpend
    rw [← pending_notes] at hpend
    refine ⟨mkChart (run initState pre).current (run initState pre).notes, ?_, rfl⟩
    rw [hall, hP, chartsIf_of_ne _ _ hpend]
    have hlen : ((run initState pre).songData.Charts ++
        [mkChart (run initState pre).current (run initState pre).notes]).length - 1 =
        (run initState pre).songData.Charts.length := by simp
    rw [hlen, List.append_assoc, List.getElem?_append_right (Nat.le_refl _)]
    simp

/-- Witness for C6: the second "#NOTES:" line has two fields; its chart keeps the values of
the first "#NOTES:" line, which are also those of the preceding chart. -/
theorem field_carry_over_witness :
    ∃ sd c, parseSMFile "#NOTES:a:b:c:d\n,1\n#NOTES:e:f\n,2\n".toList = Except.ok sd ∧
      sd.Charts.take (parseLines ["#NOTES:a:b:c:d".toList, ",1".toList]).Charts.length =
        (parseLines ["#NOTES:a:b:c:d".toList, ",1".toList]).Charts ∧
      sd.Charts[(parseLines ["#NOTES:a:b:c:d".toList, ",1".toList]).Charts.length]? = some c ∧
      c.Notes = noteRows (leadingLines [",2".toList]) ∧
      c.chartMeta = metaOfLine (lastMetaLine ["#NOTES:a:b:c:d".toList, ",1".toList]) ∧
      (noteRows (trailingLines ["#NOTES:a:b:c:d".toList, ",1".toList]) ≠ [] →
        ∃ c', sd.Charts[(parseLines ["#NOTES:a:b:c:d".toList, ",1".toList]).Charts.length - 1]?
            = some c' ∧
          c'.chartMeta = c.chartMeta) :=
  field_carry_over "#NOTES:a:b:c:d\n,1\n#NOTES:e:f\n,2\n".toList
    ["#NOTES:a:b:c:d".toList, ",1".toList] [",2".toList] "#NOTES:e:f".toList
    (by decide) (by decide) (by decide) (by decide) (by decide)

/-! ## The positions of the metadata fields -/

theorem notesFields_of_four (f0 f1 f2 f3 : GoString) (h0 : ':' ∉ f0) (h1 : ':' ∉ f1)
    (h2 : ':' ∉ f2) (h3 : ':' ∉ f3) :
    notesFields ("#NOTES:".toList ++ (f0 ++ ':' :: (f1 ++ ':' :: (f2 ++ ':' :: f3)))) =
      [f0, f1, f2, f3] := by
  have hcut : ∀ X : GoString, Cut ':' ("#NOTES:".toList ++ X) =
      some (['#', 'N', 'O', 'T', 'E', 'S'], X) := by
    intro X
    simp [lit_notes, Cut]
  unfold notesFields afterFirstColon
  rw [hcut]
  simp only
  rw [split_append_sep f0 _ ':' h0, split_append_sep f1 _ ':' h1, split_append_sep f2 _ ':' h2,
    split_no_sep f3 ':' h3]

theorem leadingLines_rows (rows : List GoString) (h : ∀ r ∈ rows, isNoteRow r = true) :
    leadingLines rows = rows ∧ notesSections rows = [] ∧
      noteRows rows = rows.map tokenizeRow := by
  induction rows with
  | nil => exact ⟨rfl, rfl, rfl⟩
  | cons r rs ih =>
    have hr := h r (List.mem_cons_self r rs)
    have hn := (noteRow_exclusive r hr).2.2.2
    obtain ⟨i1, i2, i3⟩ := ih (fun x hx => h x (List.mem_cons_of_mem r hx))
    refine ⟨?_, ?_, ?_⟩
    · rw [leadingLines_cons_other r rs hn, i1]
    · rw [notesSections_cons_other r rs hn, i2]
    · rw [noteRows_cons_row r rs hr, i3, List.map_cons]

/-- Counterexample to C4 as stated: for the line "#NOTES:dance-single:Author:Hard:8" followed by
a note row, the chart has Difficulty = "Hard" (the third field) and DifficultyTag = "8" (the
fourth field), not DifficultyTag = "Hard" and Difficulty = "8". -/
theorem field_positions_counterexample :
    parseSMFile "#NOTES:dance-single:Author:Hard:8\n,1000".toList = Except.ok
      { Title := [], Artist := [], BPMS := [],
        Charts := [
          { ChartHeader := [], Type_ := "dance-single".toList, Tag := "Author".toList,
            DifficultyTag := "8".toList, Difficulty := "Hard".toList,
            Notes := [[[], "1000".toList]] }] } := by
  rfl

/-- C4 (amended).  For every input, all of whose lines fit the scanner's buffer, consisting of
a line "#NOTES:f0:f1:f2:f3" (fields without colons) followed by at least one note row line,
parseSMFile returns a single chart with Type = trim(f0) (first metadata field), Tag = trim(f1)
(second), Difficulty = trim(f2) (third) and DifficultyTag = trim(f3) (fourth), whose Notes
are the tokenized note row lines. -/
theorem field_positions (data f0 f1 f2 f3 : GoString) (rows : List GoString)
    (hfit : LinesFit data)
    (hlines : inputLines data =
      ("#NOTES:".toList ++ (f0 ++ ':' :: (f1 ++ ':' :: (f2 ++ ':' :: f3)))) :: rows)
    (h0 : ':' ∉ f0) (h1 : ':' ∉ f1) (h2 : ':' ∉ f2) (h3 : ':' ∉ f3)
    (hne : rows ≠ []) (hrows : ∀ r ∈ rows, isNoteRow r = true) :
    ∃ sd, parseSMFile data = Except.ok sd ∧
      sd.Charts = [
        { ChartHeader := [], Type_ := TrimSpace f0, Tag := TrimSpace f1,
          Difficulty := TrimSpace f2, DifficultyTag := TrimSpace f3,
          Notes := rows.map tokenizeRow }] := by
  refine ⟨_, parseSMFile_of_fit data hfit, ?_⟩
  have hn : isNotesLine ("#NOTES:".toList ++ (f0 ++ ':' :: (f1 ++ ':' :: (f2 ++ ':' :: f3))))
      = true := (notesLine_iff _).mpr ⟨_, rfl⟩
  have hf := notesFields_of_four f0 f1 f2 f3 h0 h1 h2 h3
  obtain ⟨r1, r2, r3⟩ := leadingLines_rows rows hrows
  have hrne : rows.map tokenizeRow ≠ [] := by
    intro h
    exact hne (List.map_eq_nil_iff.mp h)
  rw [hlines, parseLines_charts, leadingLines_cons_notes _ _ hn, notesSections_cons_notes _ _ hn,
    r1, r2, noteRows_nil]
  simp only [chartsIf, ↓reduceIte, List.nil_append, sectionCharts, List.append_nil]
  have hm : metaOfLine
      (some ("#NOTES:".toList ++ (f0 ++ ':' :: (f1 ++ ':' :: (f2 ++ ':' :: f3))))) =
      (TrimSpace f0, TrimSpace f1, TrimSpace f2, TrimSpace f3) := by
    unfold metaOfLine
    simp only [hf]
    rfl
  rw [r3, if_neg hrne, stepMeta_eq, hf, hm]
  rfl

/-- Witness for C4: the line "#NOTES:dance-single: Author :Hard:8" followed by two note
rows. -/
theorem field_positions_witness :
    ∃ sd, parseSMFile "#NOTES:dance-single: Author :Hard:8\n,1000\n,0001".toList =
        Except.ok sd ∧
      sd.Charts = [
        { ChartHeader := [], Type_ := TrimSpace "dance-single".toList,
          Tag := TrimSpace " Author ".toList,
          Difficulty := TrimSpace "Hard".toList, DifficultyTag := TrimSpace "8".toList,
          Notes := [",1000".toList, ",0001".toList].map tokenizeRow }] :=
  field_positions "#NOTES:dance-single: Author :Hard:8\n,1000\n,0001".toList
    "dance-single".toList " Author ".toList "Hard".toList "8".toList
    [",1000".toList, ",0001".toList]
    (by decide) (by decide) (by decide) (by decide) (by decide) (by decide) (by decide)
    (by decide)

/-! ## The scenario of the specification -/

/-- Counterexample to C11 as stated: on the scenario input the single chart has empty Type, Tag,
Difficulty and DifficultyTag, not "dance-single", "Author", "8" and "Hard", and one note row,
not two. -/
theorem scenario_counterexample :
    ¬ ∃ sd c, parseSMFile scenarioInput = Except.ok sd ∧ sd.Charts = [c] ∧
      c.Type_ = "dance-single".toList ∧ c.Tag = "Author".toList ∧
      c.DifficultyTag = "Hard".toList ∧ c.Difficulty = "8".toList ∧ c.Notes.length = 2 := by
  rintro ⟨sd, c, h, hc, ht, -⟩
  have hsd : parseSMFile scenarioInput = Except.ok (parseLines (inputLines scenarioInput)) :=
    parseSMFile_of_fit scenarioInput (by decide)
  rw [hsd] at h
  have h' := Except.ok.inj h
  rw [← h'] at hc
  have hT : (parseLines (inputLines scenarioInput)).Charts.map ChartData.Type_ = [[]] := by
    decide
  rw [hc, List.map_cons, List.map_nil, ht] at hT
  exact absurd hT (by decide)

/-- C11 (amended).  Parsing the 13-line scenario input with parseSMFile yields the title
"My Song;", the artist "Someone ;", the tempo text "120.0;" and exactly one chart, whose Type,
Tag, Difficulty and DifficultyTag are all empty (the line "#NOTES:" has a single, empty field
and the four indented lines are not recognised) and whose notes consist of one row, the two
empty tokens of the line "," (the lines "0000", "1000", "0100", "0001" are not recognised). -/
theorem scenario :
    parseSMFile scenarioInput = Except.ok
      { Title := "My Song;".toList, Artist := "Someone ;".toList, BPMS := "120.0;".toList,
        Charts := [
          { ChartHeader := [], Type_ := [], Tag := [], DifficultyTag := [], Difficulty := [],
            Notes := [[[], []]] }] } := by
  rfl

/-! ## The chart header -/

theorem sectionCharts_header (secs : List (GoString × List GoString)) : ∀ m : ChartMeta,
    ∀ c ∈ sectionCharts m secs, c.ChartHeader = [] := by
  induction secs with
  | nil => intro m c hc; simp [sectionCharts] at hc
  | cons s secs ih =>
    intro m c hc
    rw [sectionCharts, List.mem_append] at hc
    rcases hc with hc | hc
    · unfold chartsIf at hc
      split_ifs at hc
      · simp at hc
      · rw [List.mem_singleton.mp hc]; rfl
    · exact ih _ c hc

/-- C12.  For every input text, every chart in the record returned by parseSMFile has
ChartHeader equal to the empty string. -/
theorem chartHeader_empty (data : GoString) (sd : SongData)
    (h : parseSMFile data = Except.ok sd) : ∀ c ∈ sd.Charts, c.ChartHeader = [] := by
  obtain ⟨-, rfl⟩ := parseSMFile_ok data sd h
  intro c hc
  rw [parseLines_charts, List.mem_append] at hc
  rcases hc with hc | hc
  · unfold chartsIf at hc
    split_ifs at hc
    · simp at hc
    · rw [List.mem_singleton.mp hc]; rfl
  · exact sectionCharts_header _ _ c hc

/-- Witness for C12: two charts, one before and one after a "#NOTES:" line with four fields. -/
theorem chartHeader_empty_witness :
    parseSMFile ",0\n#NOTES:a:b:c:d\n,1\n".toList =
      Except.ok (parseLines (inputLines ",0\n#NOTES:a:b:c:d\n,1\n".toList)) ∧
    ∀ c ∈ (parseLines (inputLines ",0\n#NOTES:a:b:c:d\n,1\n".toList)).Charts,
      c.ChartHeader = [] :=
  ⟨by rfl, chartHeader_empty ",0\n#NOTES:a:b:c:d\n,1\n".toList _ (by rfl)⟩

/-! ## Note rows without any "#NOTES:" line -/

theorem sections_of_no_notes (ls : List GoString) (h : ∀ l ∈ ls, isNotesLine l = false) :
    leadingLines ls = ls ∧ notesSections ls = [] := by
  induction ls with
  | nil => exact ⟨rfl, rfl⟩
  | cons l ls ih =>
    have hl := h l (List.mem_cons_self l ls)
    obtain ⟨i1, i2⟩ := ih (fun x hx => h x (List.mem_cons_of_mem l hx))
    exact ⟨by rw [leadingLines_cons_other l ls hl, i1],
      by rw [notesSections_cons_other l ls hl, i2]⟩

theorem noteRows_ne_nil (ls : List GoString) (h : ∃ l ∈ ls, isNoteRow l = true) :
    noteRows ls ≠ [] := by
  obtain ⟨l, hl, hr⟩ := h
  intro hnil
  have hmem : l ∈ ls.filter isNoteRow := List.mem_filter.mpr ⟨hl, hr⟩
  unfold noteRows at hnil
  rw [List.map_eq_nil_iff.mp hnil] at hmem
  exact absurd hmem (List.not_mem_nil l)

theorem hasPrefix_replicate (n : Nat) (c d : Char) (p : GoString) (h : c ≠ d) :
    HasPrefix (List.replicate n c) (d :: p) = false := by
  cases n with
  | zero => rfl
  | succ n =>
    rw [List.replicate_succ]
    simp [HasPrefix, List.isPrefixOf, h.symm]

/-- The line of 65536 letters "x" is kept by `dropCR` and starts with none of the markers. -/
theorem longLine_unrecognized :
    dropCR (List.replicate 65536 'x') = List.replicate 65536 'x' ∧
    isRecognized (List.replicate 65536 'x') = false := by
  constructor
  · apply dropCR_of_not_mem
    intro h
    exact absurd (List.eq_of_mem_replicate h) (by decide)
  · unfold isRecognized isNotesLine isNoteRow
    rw [lit_title, lit_artist, lit_bpms, lit_notes, lit_comma,
      hasPrefix_replicate _ _ _ _ (by decide), hasPrefix_replicate _ _ _ _ (by decide)]
    rfl

theorem not_notes_of_unrecognized (l : GoString) (h : isRecognized l = false) :
    HasPrefix l "#TITLE:".toList = false ∧ HasPrefix l "#ARTIST:".toList = false ∧
    HasPrefix l "#BPMS:".toList = false ∧ isNotesLine l = false ∧ isNoteRow l = false := by
  unfold isRecognized at h
  simp only [Bool.or_eq_false_iff] at h
  exact ⟨h.1.1.1.1, h.1.1.1.2, h.1.1.2, h.1.2, h.2⟩

/-- Counterexample to C13 as stated: the input has a note row line and no "#NOTES:" line, and
parseSMFile returns no record but the scanner's error, because the first line has 65536
bytes. -/
theorem rows_before_marker_counterexample :
    (∀ l ∈ inputLines (List.replicate 65536 'x' ++ '\n' :: ",a".toList),
      isNotesLine l = false) ∧
    (∃ l ∈ inputLines (List.replicate 65536 'x' ++ '\n' :: ",a".toList), isNoteRow l = true) ∧
    parseSMFile (List.replicate 65536 'x' ++ '\n' :: ",a".toList) =
      Except.error ScanError.ErrTooLong := by
  refine ⟨?_, ?_, parseSMFile_longLine _⟩
  · rw [inputLines_longLine, longLine_unrecognized.1]
    intro l hl
    rcases List.mem_append.mp hl with h | h
    · rw [List.mem_singleton.mp h]
      exact (not_notes_of_unrecognized _ longLine_unrecognized.2).2.2.2.1
    · revert l
      decide
  · rw [inputLines_longLine]
    exact ⟨",a".toList, List.mem_append_right _ (by decide), by decide⟩

/-- C13 (amended).  For every input text whose lines all fit the scanner's buffer and that
contains at least one note row line and no line starting with "#NOTES:", parseSMFile returns
exactly one chart whose Type, Tag, Difficulty and DifficultyTag are all the empty string and
whose Notes are the tokenized rows of all note row lines in input order. -/
theorem rows_before_marker (data : GoString) (hfit : LinesFit data)
    (hrow : ∃ l ∈ inputLines data, isNoteRow l = true)
    (hno : ∀ l ∈ inputLines data, isNotesLine l = false) :
    ∃ sd, parseSMFile data = Except.ok sd ∧
      sd.Charts = [
        { ChartHeader := [], Type_ := [], Tag := [], Difficulty := [], DifficultyTag := [],
          Notes := noteRows (inputLines data) }] := by
  refine ⟨_, parseSMFile_of_fit data hfit, ?_⟩
  obtain ⟨h1, h2⟩ := sections_of_no_notes (inputLines data) hno
  rw [parseLines_charts, h1, h2, chartsIf_of_ne _ _ (noteRows_ne_nil _ hrow)]
  rfl

/-- Witness for C13: two note rows among title and unrecognised lines. -/
theorem rows_before_marker_witness :
    ∃ sd, parseSMFile "#TITLE:x\n,1,2\n0000\n,3 \r\n".toList = Except.ok sd ∧
      sd.Charts = [
        { ChartHeader := [], Type_ := [], Tag := [], Difficulty := [], DifficultyTag := [],
          Notes := noteRows (inputLines "#TITLE:x\n,1,2\n0000\n,3 \r\n".toList) }] :=
  rows_before_marker "#TITLE:x\n,1,2\n0000\n,3 \r\n".toList (by decide)
    ⟨",1,2".toList, by decide, by decide⟩ (by decide)

/-! ## Unrecognised lines -/

theorem parseLine_unrecognized (st : ParseState) (l : GoString)
    (h : isRecognized l = false) : parseLine st l = st := by
  obtain ⟨h1, h2, h3, h4, h5⟩ := not_notes_of_unrecognized l h
  simp only [isNotesLine, isNoteRow] at h4 h5
  simp only [parseLine, h1, h2, h3, h4, h5, Bool.false_eq_true, ↓reduceIte]

theorem parseLines_insert (pre post : List GoString) (l : GoString)
    (h : isRecognized l = false) : parseLines (pre ++ l :: post) = parseLines (pre ++ post) := by
  unfold parseLines
  rw [run_append, run_cons, parseLine_unrecognized _ l h, ← run_append]

theorem hasPrefix_of_dropCR (l p : GoString) (h : HasPrefix (dropCR l) p = true) :
    HasPrefix l p = true := by
  unfold HasPrefix at h ⊢
  rw [List.isPrefixOf_iff_prefix] at h ⊢
  unfold dropCR at h
  split_ifs at h
  · exact h.trans (List.dropLast_prefix l)
  · exact h

theorem unrecognized_dropCR (l : GoString) (h : isRecognized l = false) :
    isRecognized (dropCR l) = false := by
  obtain ⟨h1, h2, h3, h4, h5⟩ := not_notes_of_unrecognized l h
  have key : ∀ p : GoString, HasPrefix l p = false → HasPrefix (dropCR l) p = false := by
    intro p hp
    by_contra hc
    have := hasPrefix_of_dropCR l p (by simpa using hc)
    rw [hp] at this
    exact absurd this (by decide)
  unfold isRecognized isNotesLine isNoteRow
  unfold isNotesLine at h4
  unfold isNoteRow at h5
  rw [key _ h1, key _ h2, key _ h3, key _ h4, key _ h5]
  rfl

theorem linesFit_insert (data1 data2 : GoString) (A B : List GoString) (l : GoString)
    (h1 : splitLines data1 = A ++ B) (h2 : splitLines data2 = A ++ l :: B)
    (hshort : utf8Len l < MaxScanTokenSize) : LinesFit data2 ↔ LinesFit data1 := by
  unfold LinesFit
  rw [h1, h2]
  constructor
  · intro h x hx
    rcases List.mem_append.mp hx with hx | hx
    · exact h x (List.mem_append_left _ hx)
    · exact h x (List.mem_append_right _ (List.mem_cons_of_mem l hx))
  · intro h x hx
    rcases List.mem_append.mp hx with hx | hx
    · exact h x (List.mem_append_left _ hx)
    · rcases List.mem_cons.mp hx with rfl | hx
      · exact hshort
      · exact h x (List.mem_append_right _ hx)

/-- Counterexample to C14 as stated: inserting, before the text ",a", a line of 65536 letters
"x", which starts with none of the five markers, changes the result from a record with one
chart to the scanner's error. -/
theorem unrecognized_ignored_counterexample :
    isRecognized (List.replicate 65536 'x') = false ∧
    splitLines ",a".toList = [] ++ [",a".toList] ∧
    splitLines (List.replicate 65536 'x' ++ '\n' :: ",a".toList) =
      [] ++ List.replicate 65536 'x' :: [",a".toList] ∧
    parseSMFile ",a".toList = Except.ok
      { Title := [], Artist := [], BPMS := [],
        Charts := [
          { ChartHeader := [], Type_ := [], Tag := [], DifficultyTag := [], Difficulty := [],
            Notes := [[[], ['a']]] }] } ∧
    parseSMFile (List.replicate 65536 'x' ++ '\n' :: ",a".toList) =
      Except.error ScanError.ErrTooLong := by
  refine ⟨longLine_unrecognized.2, by decide, ?_, by rfl, parseSMFile_longLine _⟩
  rw [splitLines_append_LF _ _ (fun h => absurd (List.eq_of_mem_replicate h) (by decide))]
  rfl

/-- C14 (amended).  For every input text, inserting or deleting a line that has fewer than
65536 bytes and does not start (at column 0, case-sensitively) with "#TITLE:", "#ARTIST:",
"#BPMS:", "#NOTES:" or "," does not change the result of parseSMFile: when the lines of
`data2` are those of `data1` with the line `l` inserted, both give the same record, or both
give the scanner's error. -/
theorem unrecognized_ignored (data1 data2 : GoString) (A B : List GoString) (l : GoString)
    (h1 : splitLines data1 = A ++ B) (h2 : splitLines data2 = A ++ l :: B)
    (hun : isRecognized l = false) (hshort : utf8Len l < MaxScanTokenSize) :
    parseSMFile data2 = parseSMFile data1 := by
  have hiff := linesFit_insert data1 data2 A B l h1 h2 hshort
  by_cases hfit : LinesFit data1
  · rw [parseSMFile_of_fit data1 hfit, parseSMFile_of_fit data2 (hiff.mpr hfit)]
    unfold inputLines
    rw [h1, h2, List.map_append, List.map_append, List.map_cons,
      parseLines_insert _ _ _ (unrecognized_dropCR l hun)]
  · rw [parseSMFile_of_not_fit data1 hfit,
      parseSMFile_of_not_fit data2 (fun h => hfit (hiff.mp h))]

/-- Witness for C14: the lines " #TITLE:x" (leading space), "#title:x" (lower case) and "0000"
inserted into a text have no effect. -/
theorem unrecognized_ignored_witness :
    parseSMFile "#TITLE:t\n #TITLE:x\n#NOTES:a:b:c:d\n,1\n".toList =
      parseSMFile "#TITLE:t\n#NOTES:a:b:c:d\n,1\n".toList ∧
    parseSMFile "#TITLE:t\n#NOTES:a:b:c:d\n#title:x\n,1\n".toList =
      parseSMFile "#TITLE:t\n#NOTES:a:b:c:d\n,1\n".toList ∧
    parseSMFile "#TITLE:t\n#NOTES:a:b:c:d\n,1\n0000".toList =
      parseSMFile "#TITLE:t\n#NOTES:a:b:c:d\n,1\n".toList :=
  ⟨unrecognized_ignored "#TITLE:t\n#NOTES:a:b:c:d\n,1\n".toList
      "#TITLE:t\n #TITLE:x\n#NOTES:a:b:c:d\n,1\n".toList
      ["#TITLE:t".toList] ["#NOTES:a:b:c:d".toList, ",1".toList] " #TITLE:x".toList
      (by decide) (by decide) (by decide) (by decide),
    unrecognized_ignored "#TITLE:t\n#NOTES:a:b:c:d\n,1\n".toList
      "#TITLE:t\n#NOTES:a:b:c:d\n#title:x\n,1\n".toList
      ["#TITLE:t".toList, "#NOTES:a:b:c:d".toList] [",1".toList] "#title:x".toList
      (by decide) (by decide) (by decide) (by decide),
    unrecognized_ignored "#TITLE:t\n#NOTES:a:b:c:d\n,1\n".toList
      "#TITLE:t\n#NOTES:a:b:c:d\n,1\n0000".toList
      ["#TITLE:t".toList, "#NOTES:a:b:c:d".toList, ",1".toList] [] "0000".toList
      (by decide) (by decide) (by decide) (by decide)⟩

/-! ## Conservation of the note rows -/

theorem noteRows_sections (ls : List GoString) :
    noteRows ls = noteRows (leadingLines ls) ++
      ((notesSections ls).map (fun s => noteRows s.2)).flatten := by
  induction ls with
  | nil => rfl
  | cons l ls ih =>
    by_cases hn : isNotesLine l = true
    · have hr : isNoteRow l = false := by
        by_contra hc
        have := (noteRow_exclusive l (by simpa using hc)).2.2.2
        rw [hn] at this
        exact absurd this (by decide)
      rw [noteRows_cons_other l ls hr, leadingLines_cons_notes l ls hn,
        notesSections_cons_notes l ls hn, noteRows_nil, List.nil_append, List.map_cons,
        List.flatten_cons, ← ih]
    · have hn' : isNotesLine l = false := by simpa using hn
      rw [leadingLines_cons_other l ls hn', notesSections_cons_other l ls hn']
      by_cases hr : isNoteRow l = true
      · rw [noteRows_cons_row l ls hr, noteRows_cons_row l _ hr, List.cons_append, ← ih]
      · have hr' : isNoteRow l = false := by simpa using hr
        rw [noteRows_cons_other l ls hr', noteRows_cons_other l _ hr', ← ih]

/-- The note rows of all charts, in chart order, are the tokenized note row lines, in input
order. -/
theorem notes_flatten (ls : List GoString) :
    ((parseLines ls).Charts.map ChartData.Notes).flatten = noteRows ls := by
  rw [parseLines_notes, List.flatten_filter_ne_nil, List.map_cons, List.flatten_cons,
    List.map_map, noteRows_sections ls]
  rfl

theorem charts_length_mono (ls : List GoString) : ∀ st : ParseState,
    st.songData.Charts.length ≤ (run st ls).songData.Charts.length := by
  induction ls with
  | nil => intro st; exact Nat.le_refl _
  | cons l ls ih =>
    intro st
    rw [run_cons]
    refine Nat.le_trans ?_ (ih _)
    by_cases hn : isNotesLine l = true
    · rw [(parseLine_notes_view st l hn).1, List.length_append]
      exact Nat.le_add_right _ _
    · have hn' : isNotesLine l = false := by simpa using hn
      by_cases hr : isNoteRow l = true
      · rw [parseLine_row st l hr]
      · have hr' : isNoteRow l = false := by simpa using hr
        rw [(parseLine_other st l hn' hr').1]

theorem charts_of_no_notes (ls : List GoString) (h : ∀ l ∈ ls, isNotesLine l = false) :
    ∀ st : ParseState, (run st ls).songData.Charts = st.songData.Charts := by
  induction ls with
  | nil => intro st; rfl
  | cons l ls ih =>
    intro st
    have hn' := h l (List.mem_cons_self l ls)
    rw [run_cons, ih (fun x hx => h x (List.mem_cons_of_mem l hx))]
    by_cases hr : isNoteRow l = true
    · rw [parseLine_row st l hr]
    · have hr' : isNoteRow l = false := by simpa using hr
      exact (parseLine_other st l hn' hr').1

theorem charts_grow_of_notes (ls : List GoString) : ∀ st : ParseState,
    st.notes ≠ [] → (∃ l ∈ ls, isNotesLine l = true) →
    st.songData.Charts.length < (run st ls).songData.Charts.length := by
  induction ls with
  | nil => intro st _ h; simp at h
  | cons l ls ih =>
    intro st hne hex
    rw [run_cons]
    by_cases hn : isNotesLine l = true
    · refine Nat.lt_of_lt_of_le ?_ (charts_length_mono ls _)
      rw [(parseLine_notes_view st l hn).1, List.length_append, chartsIf_of_ne _ _ hne]
      simp
    · have hn' : isNotesLine l = false := by simpa using hn
      have hex' : ∃ x ∈ ls, isNotesLine x = true := by
        obtain ⟨x, hx, hx2⟩ := hex
        rcases List.mem_cons.mp hx with rfl | hx'
        · exact absurd hx2 hn
        · exact ⟨x, hx', hx2⟩
      by_cases hr : isNoteRow l = true
      · have := ih (parseLine st l) (by rw [parseLine_row st l hr]; simp) hex'
        rw [parseLine_row st l hr] at this ⊢
        exact this
      · have hr' : isNoteRow l = false := by simpa using hr
        obtain ⟨h1, -, h3⟩ := parseLine_other st l hn' hr'
        have := ih (parseLine st l) (by rw [h3]; exact hne) hex'
        rw [h1] at this
        exact this

/-- The chart that holds a note row: its index is the number of charts appended before the
row is read, and its rows are the pending rows, the row itself, and the rows that follow up
to the next "#NOTES:" line. -/
theorem chart_of_row (p q : List GoString) (r : GoString) (hr : isNoteRow r = true) :
    (parseLines (p ++ r :: q)).Charts[chartOfRow p]? =
      some (mkChart (run initState p).current
        (noteRows (trailingLines p) ++ tokenizeRow r :: noteRows (leadingLines q))) := by
  unfold parseLines chartOfRow
  rw [run_append, run_cons, charts_run, parseLine_row _ r hr]
  simp only [ParseState.current]
  rw [chartsIf_of_ne _ _ (by simp), List.append_assoc,
    List.getElem?_append_right (Nat.le_refl _), pending_notes]
  simp

theorem same_chart_iff (p mid : List GoString) (r1 : GoString) (hr1 : isNoteRow r1 = true) :
    chartOfRow p = chartOfRow (p ++ r1 :: mid) ↔ ∀ l ∈ mid, isNotesLine l = false := by
  unfold chartOfRow
  rw [run_append, run_cons]
  have hS : (parseLine (run initState p) r1).songData.Charts =
      (run initState p).songData.Charts := by rw [parseLine_row _ r1 hr1]
  have hN : (parseLine (run initState p) r1).notes ≠ [] := by
    rw [parseLine_row _ r1 hr1]; simp
  constructor
  · intro heq l hl
    by_contra hc
    have hlt := charts_grow_of_notes mid _ hN ⟨l, hl, by simpa using hc⟩
    rw [hS] at hlt
    omega
  · intro hall
    rw [charts_of_no_notes mid hall, hS]

/-- C15.  For every input text on which parseSMFile succeeds: concatenating the Notes of all
returned charts in chart order gives exactly the sequence of rows obtained by tokenizing (trim,
then split on ",") every line of the input that starts with ",", in input order; each note
row line's row is in the chart whose index is the number of charts appended before the line
is read; and two note rows are in the same chart if and only if no "#NOTES:" line lies between
them. -/
theorem row_conservation (data : GoString) (sd : SongData)
    (h : parseSMFile data = Except.ok sd) :
    (sd.Charts.map ChartData.Notes).flatten = noteRows (inputLines data) ∧
    (∀ (p q : List GoString) (r : GoString), inputLines data = p ++ r :: q →
      isNoteRow r = true →
      ∃ c, sd.Charts[chartOfRow p]? = some c ∧
        c.Notes = noteRows (trailingLines p) ++ tokenizeRow r :: noteRows (leadingLines q)) ∧
    (∀ (p mid q : List GoString) (r1 r2 : GoString),
      inputLines data = p ++ r1 :: (mid ++ r2 :: q) →
      isNoteRow r1 = true → isNoteRow r2 = true →
      (chartOfRow p = chartOfRow (p ++ r1 :: mid) ↔ ∀ l ∈ mid, isNotesLine l = false)) := by
  obtain ⟨-, rfl⟩ := parseSMFile_ok data sd h
  refine ⟨notes_flatten _, ?_, ?_⟩
  · intro p q r hsplit hr
    rw [hsplit]
    exact ⟨_, chart_of_row p q r hr, rfl⟩
  · intro p mid q r1 r2 _ hr1 _
    exact same_chart_iff p mid r1 hr1

/-- Witness for C15: three note rows, a "#NOTES:" line between the second and the third. -/
theorem row_conservation_witness :
    ((parseLines (inputLines ",1\n0000\n,2\n#NOTES:a:b:c:d\n,3\n".toList)).Charts.map
        ChartData.Notes).flatten =
      noteRows (inputLines ",1\n0000\n,2\n#NOTES:a:b:c:d\n,3\n".toList) ∧
    (∀ (p q : List GoString) (r : GoString),
      inputLines ",1\n0000\n,2\n#NOTES:a:b:c:d\n,3\n".toList = p ++ r :: q →
      isNoteRow r = true →
      ∃ c, (parseLines (inputLines ",1\n0000\n,2\n#NOTES:a:b:c:d\n,3\n".toList)).Charts[
          chartOfRow p]? = some c ∧
        c.Notes = noteRows (trailingLines p) ++ tokenizeRow r :: noteRows (leadingLines q)) ∧
    (∀ (p mid q : List GoString) (r1 r2 : GoString),
      inputLines ",1\n0000\n,2\n#NOTES:a:b:c:d\n,3\n".toList = p ++ r1 :: (mid ++ r2 :: q) →
      isNoteRow r1 = true → isNoteRow r2 = true →
      (chartOfRow p = chartOfRow (p ++ r1 :: mid) ↔ ∀ l ∈ mid, isNotesLine l = false)) :=
  row_conservation ",1\n0000\n,2\n#NOTES:a:b:c:d\n,3\n".toList _ (by rfl)

/-! ## The shape of a note row -/

theorem split_tokens_no_sep (sep : Char) (s : GoString) : ∀ t ∈ Split s sep, sep ∉ t := by
  induction s with
  | nil => intro t ht; simp [Split] at ht; simp [ht]
  | cons c cs ih =>
    intro t ht
    by_cases hc : c = sep
    · rw [hc, split_cons_sep] at ht
      rcases List.mem_cons.mp ht with rfl | ht'
      · simp
      · exact ih t ht'
    · obtain ⟨f, fs, hf⟩ := split_exists cs sep
      rw [split_cons_ne c cs f fs sep hc hf] at ht
      rw [hf] at ih
      rcases List.mem_cons.mp ht with rfl | ht'
      · intro hm
        rcases List.mem_cons.mp hm with h | h
        · exact hc h.symm
        · exact ih f (List.mem_cons_self f fs) h
      · exact ih t (List.mem_cons_of_mem f ht')

theorem join_cons_head (c : Char) (f : GoString) (fs : List GoString) (sep : GoString) :
    Join ((c :: f) :: fs) sep = c :: Join (f :: fs) sep := by
  cases fs with
  | nil => rfl
  | cons g gs => simp [Join]

/-- Joining the pieces of a split with the separator gives the text back. -/
theorem join_split (sep : Char) (s : GoString) : Join (Split s sep) [sep] = s := by
  induction s with
  | nil => rfl
  | cons c cs ih =>
    obtain ⟨f, fs, hf⟩ := split_exists cs sep
    by_cases hc : c = sep
    · rw [hc, split_cons_sep, hf]
      rw [hf] at ih
      simp [Join, ih]
    · rw [split_cons_ne c cs f fs sep hc hf, join_cons_head]
      rw [hf] at ih
      rw [ih]

theorem trimSpace_row (t : GoString) :
    TrimSpace (',' :: t) = ',' :: List.rdropWhile IsSpace t ∧
    List.rdropWhile IsSpace (',' :: t) = ',' :: List.rdropWhile IsSpace t := by
  have h2 : List.rdropWhile IsSpace (',' :: t) = ',' :: List.rdropWhile IsSpace t := by
    rw [rdropWhile_cons]
    simp [show IsSpace ',' = false by decide]
  refine ⟨?_, h2⟩
  rw [trimSpace_eq, List.dropWhile_cons_of_neg (by decide), h2]

/-- The row of a note row line. -/
theorem tokenizeRow_shape (l : GoString) (hl : isNoteRow l = true) :
    2 ≤ (tokenizeRow l).length ∧ (tokenizeRow l).head? = some [] ∧
    (∀ t ∈ tokenizeRow l, ',' ∉ t) ∧
    Join (tokenizeRow l) [','] = List.rdropWhile IsSpace l := by
  obtain ⟨t, rfl⟩ := (noteRow_iff l).mp hl
  obtain ⟨e1, e2⟩ := trimSpace_row t
  obtain ⟨f, fs, hf⟩ := split_exists (List.rdropWhile IsSpace t) ','
  refine ⟨?_, ?_, ?_, ?_⟩
  · rw [tokenizeRow, e1, split_cons_sep, hf]
    simp
  · rw [tokenizeRow, e1, split_cons_sep]
    rfl
  · exact split_tokens_no_sep ',' _
  · rw [tokenizeRow, join_split, e1, e2]

theorem mem_noteRows (ls : List GoString) (row : List GoString) (h : row ∈ noteRows ls) :
    ∃ l ∈ ls, isNoteRow l = true ∧ row = tokenizeRow l := by
  unfold noteRows at h
  obtain ⟨l, hl, rfl⟩ := List.mem_map.mp h
  obtain ⟨h1, h2⟩ := List.mem_filter.mp hl
  exact ⟨l, h1, h2, rfl⟩

/-- C16.  For every input text and every note row in every chart returned by parseSMFile:
the row has at least 2 tokens, its first token is the empty string, no token contains a
comma, and the row is the tokenized form of a note row line of the input such that joining
the row's tokens with "," gives back that line with trailing white space removed. -/
theorem row_shape (data : GoString) (sd : SongData) (h : parseSMFile data = Except.ok sd) :
    ∀ c ∈ sd.Charts, ∀ row ∈ c.Notes,
      2 ≤ row.length ∧ row.head? = some [] ∧ (∀ t ∈ row, ',' ∉ t) ∧
      ∃ l ∈ inputLines data, isNoteRow l = true ∧ row = tokenizeRow l ∧
        Join row [','] = List.rdropWhile IsSpace l := by
  obtain ⟨-, rfl⟩ := parseSMFile_ok data sd h
  intro c hc row hrow
  have hmem : row ∈ noteRows (inputLines data) := by
    rw [← notes_flatten]
    exact List.mem_flatten.mpr ⟨c.Notes, List.mem_map_of_mem _ hc, hrow⟩
  obtain ⟨l, hl, hr, rfl⟩ := mem_noteRows _ _ hmem
  obtain ⟨s1, s2, s3, s4⟩ := tokenizeRow_shape l hr
  exact ⟨s1, s2, s3, l, hl, hr, rfl, s4⟩

/-- Witness for C16: rows with trailing white space, with empty tokens and with a carriage
return before the line feed. -/
theorem row_shape_witness :
    parseSMFile ",1000,0101  \n,\r\n#NOTES:a:b:c:d\n,,x \t\r\n".toList =
      Except.ok (parseLines (inputLines ",1000,0101  \n,\r\n#NOTES:a:b:c:d\n,,x \t\r\n".toList)) ∧
    ∀ c ∈ (parseLines (inputLines ",1000,0101  \n,\r\n#NOTES:a:b:c:d\n,,x \t\r\n".toList)).Charts,
      ∀ row ∈ c.Notes,
      2 ≤ row.length ∧ row.head? = some [] ∧ (∀ t ∈ row, ',' ∉ t) ∧
      ∃ l ∈ inputLines ",1000,0101  \n,\r\n#NOTES:a:b:c:d\n,,x \t\r\n".toList,
        isNoteRow l = true ∧ row = tokenizeRow l ∧
        Join row [','] = List.rdropWhile IsSpace l :=
  ⟨by rfl, row_shape ",1000,0101  \n,\r\n#NOTES:a:b:c:d\n,,x \t\r\n".toList _ (by rfl)⟩

/-! ## The line-length limit -/

/-- C17.  parseSMFile returns an error, and then no record, if and only if some line of
the input has 65536 or more bytes before its line feed or the end of input (the default
maximum token size of the scanner); for every input whose lines are all shorter than that, it
returns a record and no error. -/
theorem line_length_limit (data : GoString) :
    MaxScanTokenSize = 65536 ∧
    ((∃ err, parseSMFile data = Except.error err) ↔
      ∃ l ∈ splitLines data, 65536 ≤ utf8Len l) ∧
    ((∃ err, parseSMFile data = Except.error err) → ¬ ∃ sd, parseSMFile data = Except.ok sd) ∧
    ((∀ l ∈ splitLines data, utf8Len l < 65536) → ∃ sd, parseSMFile data = Except.ok sd) := by
  have hmax : MaxScanTokenSize = 65536 := by decide
  refine ⟨hmax, ?_, ?_, ?_⟩
  · constructor
    · rintro ⟨err, herr⟩
      by_contra hno
      have hfit : LinesFit data := by
        intro l hl
        rw [hmax]
        by_contra hlt
        exact hno ⟨l, hl, Nat.not_lt.mp hlt⟩
      rw [parseSMFile_of_fit data hfit] at herr
      cases herr
    · rintro ⟨l, hl, hlen⟩
      exact ⟨ScanError.ErrTooLong, parseSMFile_of_not_fit data
        (not_linesFit_of_line data l hl (by rw [hmax]; exact hlen))⟩
  · rintro ⟨err, herr⟩ ⟨sd, hsd⟩
    rw [herr] at hsd
    cases hsd
  · intro hall
    exact ⟨_, parseSMFile_of_fit data (by intro l hl; rw [hmax]; exact hall l hl)⟩

/-- Witness for C17: a text with short lines gives a record. -/
theorem line_length_limit_witness :
    ∃ sd, parseSMFile "#TITLE:t\n#NOTES:a:b:c:d\n,1\n".toList = Except.ok sd :=
  (line_length_limit "#TITLE:t\n#NOTES:a:b:c:d\n,1\n".toList).2.2.2 (by decide)

end WebVortex
